import Mathlib

/-
Verification development for the libbdgt personal-finance backend.

The embedding models the relational store (src/storage/db_storage.rs), the
Budget facade (src/core/budget.rs), the merge machinery of the sync protocol
and the symmetric decryption wrapper (src/crypto/symmetric.rs).

Modelling conventions:
- 16-byte identifiers and instance ids ([u8; 16], uuid) are modelled by their
  integer value as a Nat.
- Timestamps (chrono DateTime at seconds resolution, compared by value) are
  modelled as Int.
- Per-field AEAD encryption is a bijection between plaintext values and stored
  blobs (AES-GCM with lossless little-endian integer serialization), so the
  relational logic is modelled directly at plaintext field level.
- SQLite INSERT with an explicit primary key fails (constraint violation) when
  the key exists; with no id the column default randomblob(16) supplies a fresh
  identifier, modelled by a deterministic fresh-id supply over the table.
- Rust panics (Vec::remove(0) on an empty vector, Option::unwrap on None,
  slice::split_at out of bounds) are modelled as distinguished error outcomes.
-/

namespace Bdgt

/-- Identifier type: a 16-byte array modelled by its integer value. -/
abbrev Id := Nat

/-- Timestamp type: UTC seconds. -/
abbrev Timestamp := Int

/-- Predefined income transfer category identifier, the all-zero 16-byte id. -/
def TRANSFER_INCOME_ID : Id := 0

/-- Predefined outcome transfer category identifier, the all-0xFF 16-byte id. -/
def TRANSFER_OUTCOME_ID : Id := 2 ^ 128 - 1

/-- Name of the income transfer transaction description (core/budget.rs). -/
def TRANSFER_INCOME_DESCRIPTION : String := "--> Transfer (income)"

/-- Name of the outcome transfer transaction description (core/budget.rs). -/
def TRANSFER_OUTCOME_DESCRIPTION : String := "Transfer (outcome) -->"

/-- Errors surfaced by the modelled operations. Rust panics are modelled as
the two dedicated panic outcomes. -/
inductive Err where
  | constraintViolation
  | consistencyViolation
  | cannotDeletePredefined
  | notFound
  | panicOutOfBounds
  | panicUnwrap
  | noSuchColumn
  | malformedArtifact
  | decryptionError
deriving DecidableEq, Repr

/-- Meta information about an entity (storage/data.rs MetaInfo). -/
structure MetaInfo where
  origin : Nat
  added_timestamp : Option Timestamp
  changed_timestamp : Option Timestamp
  removed_timestamp : Option Timestamp
deriving DecidableEq, Repr

/-- Types of categories (storage/data.rs CategoryType). -/
inductive CategoryType where
  | Income
  | Outcome
deriving DecidableEq, Repr

/-- User-friendly transaction structure (storage/data.rs Transaction). -/
structure Transaction where
  id : Option Id
  timestamp : Timestamp
  description : String
  account_id : Id
  category_id : Id
  amount : Int
  meta_info : MetaInfo
deriving DecidableEq, Repr

/-- User-friendly account structure (storage/data.rs Account). -/
structure Account where
  id : Option Id
  name : String
  balance : Int
  initial_balance : Int
  meta_info : MetaInfo
deriving DecidableEq, Repr

/-- User-friendly category structure (storage/data.rs Category). -/
structure Category where
  id : Option Id
  name : String
  category_type : CategoryType
  meta_info : MetaInfo
deriving DecidableEq, Repr

/-- User-friendly plan structure (storage/data.rs Plan). -/
structure Plan where
  id : Option Id
  category_id : Id
  name : String
  amount_limit : Int
  meta_info : MetaInfo
deriving DecidableEq, Repr

/-- Stored row of the accounts table (db_storage.rs create_db). The id is the
primary key, _creation_timestamp is NOT NULL, the change and removal
timestamps are nullable. -/
structure AccountRow where
  id : Id
  name : String
  balance : Int
  initial_balance : Int
  origin : Nat
  created : Timestamp
  changed : Option Timestamp
  removed : Option Timestamp
deriving DecidableEq, Repr

/-- Stored row of the transactions table. -/
structure TransactionRow where
  id : Id
  timestamp : Timestamp
  description : String
  account_id : Id
  category_id : Id
  amount : Int
  origin : Nat
  created : Timestamp
  changed : Option Timestamp
  removed : Option Timestamp
deriving DecidableEq, Repr

/-- Stored row of the categories table. -/
structure CategoryRow where
  id : Id
  name : String
  category_type : CategoryType
  origin : Nat
  created : Timestamp
  changed : Option Timestamp
  removed : Option Timestamp
deriving DecidableEq, Repr

/-- Stored row of the plans table. -/
structure PlanRow where
  id : Id
  category_id : Id
  name : String
  amount_limit : Int
  origin : Nat
  created : Timestamp
  changed : Option Timestamp
  removed : Option Timestamp
deriving DecidableEq, Repr

/-- The four tables of the SQLite database (db_storage.rs create_db). -/
structure Store where
  accounts : List AccountRow
  categories : List CategoryRow
  transactions : List TransactionRow
  plans : List PlanRow
deriving DecidableEq, Repr

/-- Fresh identifier supply modelling the DEFAULT (randomblob(16)) primary-key
default: a value distinct from every identifier already present in the
table. -/
def freshId (ids : List Nat) : Nat := ids.foldr max 0 + 1

/-- First row of a query result: Vec::remove(0) in the source, which panics
when the result is empty. -/
def sqlFirst {α : Type} (l : List α) : Except Err α :=
  match l with
  | [] => .error .panicOutOfBounds
  | r :: _ => .ok r

namespace Store

/-- DbStorage::add_transaction: INSERT of the row, with the creation timestamp
taken from the meta info (NOT NULL column, so a missing value is a constraint
violation) and a fresh primary key when the id is absent. -/
def add_transaction (s : Store) (t : Transaction) : Except Err Store :=
  match t.meta_info.added_timestamp with
  | none => .error .constraintViolation
  | some created =>
    match t.id with
    | some i =>
      if s.transactions.any (fun r => r.id == i) then
        .error .constraintViolation
      else
        .ok { s with transactions := s.transactions ++
          [⟨i, t.timestamp, t.description, t.account_id, t.category_id,
            t.amount, t.meta_info.origin, created, none, none⟩] }
    | none =>
      .ok { s with transactions := s.transactions ++
        [⟨freshId (s.transactions.map (fun r => r.id)), t.timestamp,
          t.description, t.account_id, t.category_id, t.amount,
          t.meta_info.origin, created, none, none⟩] }

/-- DbStorage::remove_transaction: UPDATE transactions SET _removal_timestamp
WHERE transaction_id matches (no tombstone filter in the WHERE clause). -/
def remove_transaction (s : Store) (i : Id) (ts : Timestamp) : Store :=
  { s with transactions := (s.transactions.map
      (fun r => if r.id == i then { r with removed := some ts } else r)) }

/-- DbStorage::transaction: SELECT WHERE transaction_id matches AND
_removal_timestamp IS NULL, then element 0 of the result. -/
def transaction (s : Store) (i : Id) : Except Err TransactionRow :=
  sqlFirst (s.transactions.filter (fun r => r.id == i && r.removed.isNone))

/-- DbStorage::transactions_of: non-removed transactions of one account
(ORDER BY timestamp DESC only reorders rows; rows are kept in table order
here). -/
def transactions_of (s : Store) (i : Id) : List TransactionRow :=
  s.transactions.filter (fun r => r.account_id == i && r.removed.isNone)

/-- DbStorage::add_account. -/
def add_account (s : Store) (a : Account) : Except Err Store :=
  match a.meta_info.added_timestamp with
  | none => .error .constraintViolation
  | some created =>
    match a.id with
    | some i =>
      if s.accounts.any (fun r => r.id == i) then
        .error .constraintViolation
      else
        .ok { s with accounts := s.accounts ++
          [⟨i, a.name, a.balance, a.initial_balance, a.meta_info.origin,
            created, none, none⟩] }
    | none =>
      .ok { s with accounts := s.accounts ++
        [⟨freshId (s.accounts.map (fun r => r.id)), a.name, a.balance,
          a.initial_balance, a.meta_info.origin, created, none, none⟩] }

/-- DbStorage::update_account: UPDATE accounts SET name, balance WHERE
account_id matches AND _removal_timestamp IS NULL. The source always returns
Ok, also when no row matches. -/
def update_account (s : Store) (a : Account) : Store :=
  { s with accounts := (s.accounts.map
      (fun r => if a.id == some r.id && r.removed.isNone then
          { r with name := a.name, balance := a.balance }
        else r)) }

/-- DbStorage::remove_account: ensure_consistency over non-removed
transactions referencing the account, then tombstone. -/
def remove_account (s : Store) (i : Id) (ts : Timestamp) : Except Err Store :=
  if 0 < (s.transactions.filter
      (fun t => t.removed.isNone && t.account_id == i)).length then
    .error .consistencyViolation
  else
    .ok { s with accounts := (s.accounts.map
      (fun r => if r.id == i then { r with removed := some ts } else r)) }

/-- DbStorage::account: SELECT WHERE account_id matches AND
_removal_timestamp IS NULL, then element 0 of the result. -/
def account (s : Store) (i : Id) : Except Err AccountRow :=
  sqlFirst (s.accounts.filter (fun r => r.id == i && r.removed.isNone))

/-- DbStorage::add_category. -/
def add_category (s : Store) (c : Category) : Except Err Store :=
  match c.meta_info.added_timestamp with
  | none => .error .constraintViolation
  | some created =>
    match c.id with
    | some i =>
      if s.categories.any (fun r => r.id == i) then
        .error .constraintViolation
      else
        .ok { s with categories := s.categories ++
          [⟨i, c.name, c.category_type, c.meta_info.origin, created,
            none, none⟩] }
    | none =>
      .ok { s with categories := s.categories ++
        [⟨freshId (s.categories.map (fun r => r.id)), c.name,
          c.category_type, c.meta_info.origin, created, none, none⟩] }

/-- DbStorage::remove_category: predefined-id check, then consistency checks
over non-removed transactions and plans referencing the category, then
tombstone. -/
def remove_category (s : Store) (i : Id) (ts : Timestamp) : Except Err Store :=
  if i == TRANSFER_INCOME_ID || i == TRANSFER_OUTCOME_ID then
    .error .cannotDeletePredefined
  else if 0 < (s.transactions.filter
      (fun t => t.removed.isNone && t.category_id == i)).length then
    .error .consistencyViolation
  else if 0 < (s.plans.filter
      (fun p => p.removed.isNone && p.category_id == i)).length then
    .error .consistencyViolation
  else
    .ok { s with categories := (s.categories.map
      (fun r => if r.id == i then { r with removed := some ts } else r)) }

/-- DbStorage::category lookup. -/
def category (s : Store) (i : Id) : Except Err CategoryRow :=
  sqlFirst (s.categories.filter (fun r => r.id == i && r.removed.isNone))

/-- DbStorage::add_plan. -/
def add_plan (s : Store) (p : Plan) : Except Err Store :=
  match p.meta_info.added_timestamp with
  | none => .error .constraintViolation
  | some created =>
    match p.id with
    | some i =>
      if s.plans.any (fun r => r.id == i) then
        .error .constraintViolation
      else
        .ok { s with plans := s.plans ++
          [⟨i, p.category_id, p.name, p.amount_limit, p.meta_info.origin,
            created, none, none⟩] }
    | none =>
      .ok { s with plans := s.plans ++
        [⟨freshId (s.plans.map (fun r => r.id)), p.category_id, p.name,
          p.amount_limit, p.meta_info.origin, created, none, none⟩] }

/-- DbStorage::remove_plan: unconditional tombstone. -/
def remove_plan (s : Store) (i : Id) (ts : Timestamp) : Store :=
  { s with plans := (s.plans.map
      (fun r => if r.id == i then { r with removed := some ts } else r)) }

/-- DbStorage::plan lookup. -/
def plan (s : Store) (i : Id) : Except Err PlanRow :=
  sqlFirst (s.plans.filter (fun r => r.id == i && r.removed.isNone))

end Store

/-- Column name used by the ORDER BY clause of the *_since queries. -/
def timestampColumn : String := "timestamp"

/-- Columns of the accounts table (db_storage.rs create_db). -/
def accountsColumns : List String :=
  [ "account_id", "balance", "initial_balance", "name", "_origin",
    "_creation_timestamp", "_change_timestamp", "_removal_timestamp" ]

/-- Columns of the categories table. -/
def categoriesColumns : List String :=
  [ "category_id", "name", "type", "_origin", "_creation_timestamp",
    "_change_timestamp", "_removal_timestamp" ]

/-- Columns of the transactions table. -/
def transactionsColumns : List String :=
  [ "transaction_id", "timestamp", "description", "account_id",
    "category_id", "amount", "_origin", "_creation_timestamp",
    "_change_timestamp", "_removal_timestamp" ]

/-- Columns of the plans table. -/
def plansColumns : List String :=
  [ "plan_id", "category_id", "name", "amount_limit", "_origin",
    "_creation_timestamp", "_change_timestamp", "_removal_timestamp" ]

/-- The *_since queries end in ORDER BY timestamp DESC; SQLite resolves the
bare identifier against the table columns at prepare time and fails with a
no-such-column error when the table has no column named timestamp. -/
def orderByTimestamp (cols : List String) : Except Err Unit :=
  if cols.contains timestampColumn then .ok () else .error .noSuchColumn

namespace Store

/-- DbStorage::accounts_added_since: WHERE _creation_timestamp > base
ORDER BY timestamp DESC, over the accounts table. -/
def accounts_added_since (s : Store) (base : Timestamp) :
    Except Err (List AccountRow) :=
  match orderByTimestamp accountsColumns with
  | .error e => .error e
  | .ok _ => .ok (s.accounts.filter (fun r => decide (base < r.created)))

/-- DbStorage::accounts_changed_since: WHERE _change_timestamp IS NOT NULL AND
_change_timestamp > base ORDER BY timestamp DESC. -/
def accounts_changed_since (s : Store) (base : Timestamp) :
    Except Err (List AccountRow) :=
  match orderByTimestamp accountsColumns with
  | .error e => .error e
  | .ok _ => .ok (s.accounts.filter (fun r =>
      match r.changed with
      | some v => decide (base < v)
      | none => false))

/-- DbStorage::accounts_removed_since: WHERE _removal_timestamp IS NOT NULL
AND _removal_timestamp > base ORDER BY timestamp DESC. -/
def accounts_removed_since (s : Store) (base : Timestamp) :
    Except Err (List AccountRow) :=
  match orderByTimestamp accountsColumns with
  | .error e => .error e
  | .ok _ => .ok (s.accounts.filter (fun r =>
      match r.removed with
      | some v => decide (base < v)
      | none => false))

/-- DbStorage::categories_added_since. -/
def categories_added_since (s : Store) (base : Timestamp) :
    Except Err (List CategoryRow) :=
  match orderByTimestamp categoriesColumns with
  | .error e => .error e
  | .ok _ => .ok (s.categories.filter (fun r => decide (base < r.created)))

/-- DbStorage::categories_changed_since. -/
def categories_changed_since (s : Store) (base : Timestamp) :
    Except Err (List CategoryRow) :=
  match orderByTimestamp categoriesColumns with
  | .error e => .error e
  | .ok _ => .ok (s.categories.filter (fun r =>
      match r.changed with
      | some v => decide (base < v)
      | none => false))

/-- DbStorage::categories_removed_since. -/
def categories_removed_since (s : Store) (base : Timestamp) :
    Except Err (List CategoryRow) :=
  match orderByTimestamp categoriesColumns with
  | .error e => .error e
  | .ok _ => .ok (s.categories.filter (fun r =>
      match r.removed with
      | some v => decide (base < v)
      | none => false))

/-- DbStorage::plans_added_since. -/
def plans_added_since (s : Store) (base : Timestamp) :
    Except Err (List PlanRow) :=
  match orderByTimestamp plansColumns with
  | .error e => .error e
  | .ok _ => .ok (s.plans.filter (fun r => decide (base < r.created)))

/-- DbStorage::plans_changed_since. -/
def plans_changed_since (s : Store) (base : Timestamp) :
    Except Err (List PlanRow) :=
  match orderByTimestamp plansColumns with
  | .error e => .error e
  | .ok _ => .ok (s.plans.filter (fun r =>
      match r.changed with
      | some v => decide (base < v)
      | none => false))

/-- DbStorage::plans_removed_since. -/
def plans_removed_since (s : Store) (base : Timestamp) :
    Except Err (List PlanRow) :=
  match orderByTimestamp plansColumns with
  | .error e => .error e
  | .ok _ => .ok (s.plans.filter (fun r =>
      match r.removed with
      | some v => decide (base < v)
      | none => false))

/-- DbStorage::transactions_added_since (the transactions table has a
timestamp column, so ORDER BY prepares fine). -/
def transactions_added_since (s : Store) (base : Timestamp) :
    Except Err (List TransactionRow) :=
  match orderByTimestamp transactionsColumns with
  | .error e => .error e
  | .ok _ => .ok (s.transactions.filter (fun r => decide (base < r.created)))

/-- DbStorage::transactions_changed_since. -/
def transactions_changed_since (s : Store) (base : Timestamp) :
    Except Err (List TransactionRow) :=
  match orderByTimestamp transactionsColumns with
  | .error e => .error e
  | .ok _ => .ok (s.transactions.filter (fun r =>
      match r.changed with
      | some v => decide (base < v)
      | none => false))

/-- DbStorage::transactions_removed_since. -/
def transactions_removed_since (s : Store) (base : Timestamp) :
    Except Err (List TransactionRow) :=
  match orderByTimestamp transactionsColumns with
  | .error e => .error e
  | .ok _ => .ok (s.transactions.filter (fun r =>
      match r.removed with
      | some v => decide (base < v)
      | none => false))

end Store

/-- Plaintext account reconstructed from a stored row, as produced by
Budget::decrypt_account (the row id becomes a some id, the meta columns become
the meta info). -/
def accountOfRow (r : AccountRow) : Account :=
  ⟨some r.id, r.name, r.balance, r.initial_balance,
    ⟨r.origin, some r.created, r.changed, r.removed⟩⟩

/-- Rust isize::abs. -/
def iabs (x : Int) : Int := if x < 0 then -x else x

namespace Budget

/-- Budget::add_transaction: read the referenced account, add the amount to
its decrypted balance, insert the transaction, then update the account. The
two writes are not wrapped in a DB transaction, but each failure in this model
happens before any mutation (the SQL insert is atomic). -/
def add_transaction (s : Store) (t : Transaction) : Except Err Store :=
  match Store.account s t.account_id with
  | .error e => .error e
  | .ok acc =>
    match Store.add_transaction s t with
    | .error e => .error e
    | .ok s1 =>
      .ok (Store.update_account s1
        (accountOfRow { acc with balance := acc.balance + t.amount }))

/-- Budget::remove_transaction: when not emergency, read the transaction and
its account, subtract the amount from the balance, update the account, then
tombstone the transaction; when emergency, only tombstone. -/
def remove_transaction (s : Store) (i : Id) (emergency : Bool)
    (ts : Timestamp) : Except Err Store :=
  if emergency then
    .ok (Store.remove_transaction s i ts)
  else
    match Store.transaction s i with
    | .error e => .error e
    | .ok tx =>
      match Store.account s tx.account_id with
      | .error e => .error e
      | .ok acc =>
        .ok (Store.remove_transaction
          (Store.update_account s
            (accountOfRow { acc with balance := acc.balance - tx.amount }))
          i ts)

/-- Budget::add_transfer: take the absolute value of the amount, then add the
income leg on the destination account and the outcome leg on the source
account, both at the given timestamp and referencing the predefined transfer
categories. -/
def add_transfer (origin : Nat) (s : Store) (amount : Int)
    (from_account to_account : Id) (ts : Timestamp) : Except Err Store :=
  let amount := iabs amount
  match add_transaction s
      ⟨none, ts, TRANSFER_INCOME_DESCRIPTION, to_account,
        TRANSFER_INCOME_ID, amount, ⟨origin, some ts, none, none⟩⟩ with
  | .error e => .error e
  | .ok s1 =>
    add_transaction s1
      ⟨none, ts, TRANSFER_OUTCOME_DESCRIPTION, from_account,
        TRANSFER_OUTCOME_ID, -amount, ⟨origin, some ts, none, none⟩⟩

/-- Budget::add_account: encrypt and insert. -/
def add_account (s : Store) (a : Account) : Except Err Store :=
  Store.add_account s a

/-- Budget::remove_account: when forced, first tombstone every non-removed
transaction of the account directly in the storage, then remove the
account. -/
def remove_account (s : Store) (i : Id) (force : Bool)
    (ts : Timestamp) : Except Err Store :=
  if force then
    Store.remove_account
      ((Store.transactions_of s i).foldl
        (fun s1 tx => Store.remove_transaction s1 tx.id ts) s) i ts
  else
    Store.remove_account s i ts

/-- Budget::add_category. -/
def add_category (s : Store) (c : Category) : Except Err Store :=
  Store.add_category s c

/-- Budget::remove_category: delegates to the storage. -/
def remove_category (s : Store) (i : Id) (ts : Timestamp) :
    Except Err Store :=
  Store.remove_category s i ts

/-- Budget::add_plan. -/
def add_plan (s : Store) (p : Plan) : Except Err Store :=
  Store.add_plan s p

/-- Budget::remove_plan: delegates to the storage, which always succeeds. -/
def remove_plan (s : Store) (i : Id) (ts : Timestamp) : Except Err Store :=
  .ok (Store.remove_plan s i ts)

end Budget

/-- Simple changelog representation for some items (core/changelog.rs). -/
structure SimpleChangelog (α : Type) where
  added : List α
  changed : List α
  removed : List α
deriving DecidableEq, Repr

/-- Database changelog representation (core/changelog.rs). -/
structure Changelog where
  accounts : SimpleChangelog Account
  categories : SimpleChangelog Category
  transactions : SimpleChangelog Transaction
  plans : SimpleChangelog Plan
deriving DecidableEq, Repr

/-- Changelog::new: the empty changelog. -/
def Changelog.new : Changelog :=
  ⟨⟨[], [], []⟩, ⟨[], [], []⟩, ⟨[], [], []⟩, ⟨[], [], []⟩⟩

/-- One merge operation of Budget::merge_changes, carrying the changelog row
it originates from. -/
inductive MergeOp where
  | addAccount (a : Account)
  | addCategory (c : Category)
  | addPlan (p : Plan)
  | addTransaction (t : Transaction)
  | removeTransaction (t : Transaction)
  | removePlan (p : Plan)
  | removeCategory (c : Category)
  | removeAccount (a : Account)
deriving DecidableEq, Repr

/-- The effect of one merge operation on the local store, as performed by the
closures of Budget::merge_changes: account additions reset the balance to the
initial balance, removals unwrap the row id and removal timestamp (a missing
value is an unwrap panic) and call the corresponding Budget removal. -/
def applyMergeOp (s : Store) : MergeOp → Except Err Store
  | .addAccount a => Budget.add_account s { a with balance := a.initial_balance }
  | .addCategory c => Budget.add_category s c
  | .addPlan p => Budget.add_plan s p
  | .addTransaction t => Budget.add_transaction s t
  | .removeTransaction t =>
    match t.id, t.meta_info.removed_timestamp with
    | some i, some ts => Budget.remove_transaction s i false ts
    | _, _ => .error .panicUnwrap
  | .removePlan p =>
    match p.id, p.meta_info.removed_timestamp with
    | some i, some ts => Budget.remove_plan s i ts
    | _, _ => .error .panicUnwrap
  | .removeCategory c =>
    match c.id, c.meta_info.removed_timestamp with
    | some i, some ts => Budget.remove_category s i ts
    | _, _ => .error .panicUnwrap
  | .removeAccount a =>
    match a.id, a.meta_info.removed_timestamp with
    | some i, some ts => Budget.remove_account s i false ts
    | _, _ => .error .panicUnwrap

/-- Budget::merge_step: iterate the items, keep those passing the filter and
apply the merge operation to each, stopping at the first failure. The filter
itself may panic (unwrap of a missing timestamp), modelled by a none result.
The pair carries the store reached so far and the abort error, if any. -/
def merge_step {α : Type} (flt : α → Option Bool)
    (op : α → Store → Except Err Store) :
    List α → Store → Store × Option Err
  | [], s => (s, none)
  | r :: rest, s =>
    match flt r with
    | none => (s, some Err.panicUnwrap)
    | some false => merge_step flt op rest s
    | some true =>
      match op r s with
      | .error e => (s, some e)
      | .ok s1 => merge_step flt op rest s1

/-- Sequencing of merge phases: a phase runs only when the previous ones did
not abort. -/
def stepThen (r : Store × Option Err) (f : Store → Store × Option Err) :
    Store × Option Err :=
  match r with
  | (s, none) => f s
  | (s, some e) => (s, some e)

/-- The filter of the addition phases of Budget::merge_changes:
added_timestamp.unwrap().ge(last_sync) && origin != instance. The unwrap is
evaluated first, so a missing timestamp panics. -/
def addedFilter (inst : Nat) (lastSync : Timestamp) (m : MetaInfo) :
    Option Bool :=
  match m.added_timestamp with
  | none => none
  | some v => some (decide (lastSync ≤ v) && decide (m.origin ≠ inst))

/-- The filter of the removal phases of Budget::merge_changes, over the
removal timestamp. -/
def removedFilter (inst : Nat) (lastSync : Timestamp) (m : MetaInfo) :
    Option Bool :=
  match m.removed_timestamp with
  | none => none
  | some v => some (decide (lastSync ≤ v) && decide (m.origin ≠ inst))

/-- Budget::merge_changes: additions in the order accounts, categories,
plans, transactions, then removals in the order transactions, plans,
categories, accounts, each phase filtered by origin and timestamp. -/
def merge_changes (inst : Nat) (lastSync : Timestamp) (c : Changelog)
    (s : Store) : Store × Option Err :=
  stepThen (merge_step (fun a => addedFilter inst lastSync a.meta_info)
      (fun a s => applyMergeOp s (.addAccount a)) c.accounts.added s) fun s =>
  stepThen (merge_step (fun x => addedFilter inst lastSync x.meta_info)
      (fun x s => applyMergeOp s (.addCategory x)) c.categories.added s) fun s =>
  stepThen (merge_step (fun x => addedFilter inst lastSync x.meta_info)
      (fun x s => applyMergeOp s (.addPlan x)) c.plans.added s) fun s =>
  stepThen (merge_step (fun x => addedFilter inst lastSync x.meta_info)
      (fun x s => applyMergeOp s (.addTransaction x)) c.transactions.added s) fun s =>
  stepThen (merge_step (fun x => removedFilter inst lastSync x.meta_info)
      (fun x s => applyMergeOp s (.removeTransaction x)) c.transactions.removed s) fun s =>
  stepThen (merge_step (fun x => removedFilter inst lastSync x.meta_info)
      (fun x s => applyMergeOp s (.removePlan x)) c.plans.removed s) fun s =>
  stepThen (merge_step (fun x => removedFilter inst lastSync x.meta_info)
      (fun x s => applyMergeOp s (.removeCategory x)) c.categories.removed s) fun s =>
  merge_step (fun x => removedFilter inst lastSync x.meta_info)
      (fun x s => applyMergeOp s (.removeAccount x)) c.accounts.removed s

/-- Executor of a list of merge operations in order, stopping at the first
failure. -/
def runMergeOps : List MergeOp → Store → Store × Option Err
  | [], s => (s, none)
  | op :: rest, s =>
    match applyMergeOp s op with
    | .error e => (s, some e)
    | .ok s1 => runMergeOps rest s1

/-- Modelled from the spec words (claim C2): a changelog row is applied
exactly when its meta origin differs from this instance and its relevant meta
timestamp is at least last_sync. -/
def specPasses (inst : Nat) (lastSync : Timestamp) (origin : Nat)
    (ts : Option Timestamp) : Bool :=
  decide (origin ≠ inst) &&
    (match ts with
     | some v => decide (lastSync ≤ v)
     | none => false)

/-- Modelled from the spec words (claim C2): the fixed deterministic merge
order — additions accounts, categories, plans, transactions, followed by
removals transactions, plans, categories, accounts, each list filtered by the
origin and timestamp condition. -/
def specMergeOps (inst : Nat) (lastSync : Timestamp) (c : Changelog) :
    List MergeOp :=
  (c.accounts.added.filter (fun x =>
      specPasses inst lastSync x.meta_info.origin x.meta_info.added_timestamp)).map .addAccount
  ++ ((c.categories.added.filter (fun x =>
      specPasses inst lastSync x.meta_info.origin x.meta_info.added_timestamp)).map .addCategory
  ++ ((c.plans.added.filter (fun x =>
      specPasses inst lastSync x.meta_info.origin x.meta_info.added_timestamp)).map .addPlan
  ++ ((c.transactions.added.filter (fun x =>
      specPasses inst lastSync x.meta_info.origin x.meta_info.added_timestamp)).map .addTransaction
  ++ ((c.transactions.removed.filter (fun x =>
      specPasses inst lastSync x.meta_info.origin x.meta_info.removed_timestamp)).map .removeTransaction
  ++ ((c.plans.removed.filter (fun x =>
      specPasses inst lastSync x.meta_info.origin x.meta_info.removed_timestamp)).map .removePlan
  ++ ((c.categories.removed.filter (fun x =>
      specPasses inst lastSync x.meta_info.origin x.meta_info.removed_timestamp)).map .removeCategory
  ++ ((c.accounts.removed.filter (fun x =>
      specPasses inst lastSync x.meta_info.origin x.meta_info.removed_timestamp)).map .removeAccount)))))))

/-- All rows examined by merge_changes carry the meta timestamp their filter
unwraps (additions: added_timestamp, removals: removed_timestamp). -/
abbrev WellTimed (c : Changelog) : Prop :=
  (∀ a ∈ c.accounts.added, a.meta_info.added_timestamp.isSome) ∧
  (∀ x ∈ c.categories.added, x.meta_info.added_timestamp.isSome) ∧
  (∀ x ∈ c.plans.added, x.meta_info.added_timestamp.isSome) ∧
  (∀ x ∈ c.transactions.added, x.meta_info.added_timestamp.isSome) ∧
  (∀ x ∈ c.transactions.removed, x.meta_info.removed_timestamp.isSome) ∧
  (∀ x ∈ c.plans.removed, x.meta_info.removed_timestamp.isSome) ∧
  (∀ x ∈ c.categories.removed, x.meta_info.removed_timestamp.isSome) ∧
  (∀ x ∈ c.accounts.removed, x.meta_info.removed_timestamp.isSome)

/-- A meta timestamp is stale for the given instance and last-sync point: it
is present and either below last_sync or the row originated on this
instance, so the merge filter rejects the row. -/
def relevantStale (inst : Nat) (lastSync : Timestamp) (origin : Nat)
    (ts : Option Timestamp) : Bool :=
  match ts with
  | some v => decide (v < lastSync) || decide (origin = inst)
  | none => false

/-- Every row of the changelog is stale for the given instance and last-sync
point, on the timestamp its merge filter examines. -/
abbrev AllFiltered (inst : Nat) (lastSync : Timestamp) (c : Changelog) : Prop :=
  (∀ x ∈ c.accounts.added,
    relevantStale inst lastSync x.meta_info.origin x.meta_info.added_timestamp = true) ∧
  (∀ x ∈ c.categories.added,
    relevantStale inst lastSync x.meta_info.origin x.meta_info.added_timestamp = true) ∧
  (∀ x ∈ c.plans.added,
    relevantStale inst lastSync x.meta_info.origin x.meta_info.added_timestamp = true) ∧
  (∀ x ∈ c.transactions.added,
    relevantStale inst lastSync x.meta_info.origin x.meta_info.added_timestamp = true) ∧
  (∀ x ∈ c.transactions.removed,
    relevantStale inst lastSync x.meta_info.origin x.meta_info.removed_timestamp = true) ∧
  (∀ x ∈ c.plans.removed,
    relevantStale inst lastSync x.meta_info.origin x.meta_info.removed_timestamp = true) ∧
  (∀ x ∈ c.categories.removed,
    relevantStale inst lastSync x.meta_info.origin x.meta_info.removed_timestamp = true) ∧
  (∀ x ∈ c.accounts.removed,
    relevantStale inst lastSync x.meta_info.origin x.meta_info.removed_timestamp = true)

/-- Budget::empty_sync_files over the byte sizes of the three sync artifact
files: all empty is fine (empty changelog), timestamp and instance non-empty
is fine regardless of the changelog size, anything else is an error. -/
def empty_sync_files (timestamp_size last_instance_size changelog_size : Nat) :
    Except Err Bool :=
  match timestamp_size, last_instance_size, changelog_size with
  | 0, 0, 0 => .ok true
  | t + 1, i + 1, _ =>
    -- silence unused-variable linting of the match binders
    let _ := t
    let _ := i
    .ok false
  | _, _, _ => .error .malformedArtifact

/-- The changelog-acquisition step at the start of merge_and_export_changes:
when the files are correct but empty, start from an empty changelog; when
they are non-empty, read, decrypt and deserialize the remote changelog (the
decode parameter abstracts the KDF, AEAD decryption and deserialization);
otherwise fail before any decryption. -/
def acquireChangelog (timestamp_size last_instance_size changelog_size : Nat)
    (decode : Unit → Except Err Changelog) : Except Err Changelog :=
  match empty_sync_files timestamp_size last_instance_size changelog_size with
  | .error e => .error e
  | .ok true => .ok Changelog.new
  | .ok false => decode ()

/-- Byte length of the AES-GCM nonce (96 bits). -/
def NONCE_SIZE : Nat := 12

/-- Outcome of SymmetricCipher::decrypt: a plaintext, a returned error, or a
Rust panic. -/
inductive DecryptOutcome where
  | ok (plaintext : List Nat)
  | err (e : Err)
  | panic
deriving DecidableEq, Repr

/-- SymmetricCipher::decrypt: split the 12-byte nonce prefix off the input
with slice::split_at (which panics when the input is shorter than the nonce),
then run the AEAD open on the nonce and the remainder. The aead parameter
abstracts Aes256Gcm::decrypt under the already-validated key: it returns the
plaintext or fails (authentication failure), mapped to a decryption error. -/
def SymmetricCipher.decrypt
    (aead : List Nat → List Nat → Option (List Nat))
    (ciphertext : List Nat) : DecryptOutcome :=
  if ciphertext.length < NONCE_SIZE then
    .panic
  else
    match aead (ciphertext.take NONCE_SIZE) (ciphertext.drop NONCE_SIZE) with
    | some plaintext => .ok plaintext
    | none => .err .decryptionError

/-- Contribution of one stored transaction to the balance of one account: its
amount when it is a non-removed transaction of that account, zero
otherwise. -/
def txContribution (aid : Id) (t : TransactionRow) : Int :=
  if t.account_id = aid ∧ t.removed = none then t.amount else 0

/-- Sum of the amounts of the non-removed transactions of one account. -/
def txSum (l : List TransactionRow) (aid : Id) : Int :=
  (l.map (txContribution aid)).sum

/-- Primary-key discipline of the database: account and transaction
identifiers are pairwise distinct (also across tombstoned rows). -/
abbrev UniqueIds (s : Store) : Prop :=
  s.accounts.Pairwise (fun a b => a.id ≠ b.id) ∧
  s.transactions.Pairwise (fun a b => a.id ≠ b.id)

/-- The balance equation of the spec: every non-removed account balance is
the initial balance plus the sum of the amounts of the non-removed
transactions referencing it. -/
abbrev BalanceEq (s : Store) : Prop :=
  ∀ a ∈ s.accounts, a.removed = none →
    a.balance = a.initial_balance + txSum s.transactions a.id

/-- Invariant maintained by the Budget transaction operations. -/
abbrev BudgetInv (s : Store) : Prop := UniqueIds s ∧ BalanceEq s

/-- One Budget call of the sequences considered by the balance invariant:
add_transaction or non-emergency remove_transaction. -/
inductive TxOp where
  | add (t : Transaction)
  | remove (i : Id) (ts : Timestamp)
deriving DecidableEq, Repr

/-- Effect of one Budget call on the store; a failing call leaves the store
unchanged (every failure point of the two operations precedes the first
write). -/
def applyTxOp (s : Store) : TxOp → Store
  | .add t =>
    match Budget.add_transaction s t with
    | .ok s1 => s1
    | .error _ => s
  | .remove i ts =>
    match Budget.remove_transaction s i false ts with
    | .ok s1 => s1
    | .error _ => s

/-- Effect of a sequence of Budget transaction calls. -/
def runTxOps (ops : List TxOp) (s : Store) : Store :=
  ops.foldl applyTxOp s

/-- Sample store used by the concrete witnesses: two fresh accounts and one
income category, no transactions. -/
def sampleStore : Store :=
  ⟨[ ⟨1, "A", 1000, 1000, 9, 5, none, none⟩,
     ⟨2, "B", 500, 500, 9, 5, none, none⟩ ],
   [ ⟨3, "Salary", CategoryType.Income, 9, 5, none, none⟩ ],
   [], []⟩

/-- Sample sequence of Budget calls used by the balance-invariant witness. -/
def sampleTxOps : List TxOp :=
  [ TxOp.add ⟨some 10, 6, "t1", 1, 3, 250, ⟨9, some 6, none, none⟩⟩,
    TxOp.add ⟨some 11, 7, "t2", 1, 3, -100, ⟨9, some 7, none, none⟩⟩,
    TxOp.remove 11 8 ]

/-- Sample changelog used by the merge witnesses: rows authored by a foreign
instance (origin 7) with timestamps at or above 10. -/
def sampleChangelog : Changelog :=
  ⟨⟨[ ⟨some 21, "R", 40, 30, ⟨7, some 10, none, none⟩⟩ ], [], []⟩,
   ⟨[ ⟨some 22, "Food", CategoryType.Outcome, ⟨7, some 11, none, none⟩⟩ ], [], []⟩,
   ⟨[ ⟨some 23, 12, "rtx", 21, 22, -5, ⟨7, some 12, none, none⟩⟩ ], [],
    [ ⟨some 23, 12, "rtx", 21, 22, -5, ⟨7, some 12, none, some 13⟩⟩ ]⟩,
   ⟨[ ⟨some 24, 22, "budget", 50, ⟨7, some 11, none, none⟩⟩ ], [], []⟩⟩

/-- Changelog with a single foreign account addition carrying no explicit id;
used by the merge idempotence counterexample. -/
def idlessChangelog : Changelog :=
  ⟨⟨[ ⟨none, "x", 5, 5, ⟨2, some 10, none, none⟩⟩ ], [], []⟩,
   ⟨[], [], []⟩, ⟨[], [], []⟩, ⟨[], [], []⟩⟩

/-- The empty store. -/
def emptyStore : Store := ⟨[], [], [], []⟩

/-- Store with a transaction referencing account 1 and category 3 and a plan
referencing category 3, used by the referential-integrity witness. -/
def c6Store : Store :=
  ⟨[ ⟨1, "A", 1250, 1000, 9, 5, none, none⟩ ],
   [ ⟨3, "Salary", CategoryType.Income, 9, 5, none, none⟩ ],
   [ ⟨10, 6, "t1", 1, 3, 250, 9, 6, none, none⟩ ],
   [ ⟨40, 3, "p", 100, 9, 6, none, none⟩ ]⟩

/-- Authentication-rejecting AEAD used by concrete witnesses. -/
def nullAead : List Nat → List Nat → Option (List Nat) := fun _ _ => none

end Bdgt

namespace Bdgt

theorem pairwise_key_inj {α : Type} {β : Type} {k : α → β} {l : List α}
    (h : l.Pairwise (fun a b => k a ≠ k b)) :
    ∀ {a b : α}, a ∈ l → b ∈ l → k a = k b → a = b := by
  induction l with
  | nil => intro a b ha; cases ha
  | cons x xs ih =>
    rw [List.pairwise_cons] at h
    intro a b ha hb hk
    cases ha with
    | head =>
      cases hb with
      | head => rfl
      | tail _ hb => exact absurd hk (h.1 b hb)
    | tail _ ha =>
      cases hb with
      | head => exact absurd hk.symm (h.1 a ha)
      | tail _ hb => exact ih h.2 ha hb hk

theorem map_eq_self_of_eq {α : Type} {f : α → α} {l : List α}
    (h : ∀ a ∈ l, f a = a) : l.map f = l := by
  induction l with
  | nil => rfl
  | cons x xs ih =>
    simp only [List.map_cons, h x (List.mem_cons_self x xs)]
    rw [ih (fun a ha => h a (List.mem_cons_of_mem x ha))]

theorem sqlFirst_filter_ok {α : Type} {l : List α} {p : α → Bool} {r : α}
    (h : sqlFirst (l.filter p) = .ok r) : r ∈ l ∧ p r = true := by
  cases hf : l.filter p with
  | nil => rw [hf] at h; exact absurd h (by simp [sqlFirst])
  | cons x xs =>
    rw [hf] at h
    simp only [sqlFirst, Except.ok.injEq] at h
    subst h
    have hx : x ∈ l.filter p := by rw [hf]; exact List.mem_cons_self x xs
    exact List.mem_filter.mp hx

theorem sqlFirst_filter_eq_ok {α : Type} {l : List α} {p : α → Bool}
    (hinj : ∀ x y, x ∈ l → y ∈ l → p x = true → p y = true → x = y)
    {r : α} (hr : r ∈ l) (hp : p r = true) :
    sqlFirst (l.filter p) = .ok r := by
  cases hf : l.filter p with
  | nil =>
    rw [List.filter_eq_nil_iff] at hf
    exact absurd hp (hf r hr)
  | cons x xs =>
    have hx : x ∈ l.filter p := by rw [hf]; exact List.mem_cons_self x xs
    obtain ⟨hxl, hxp⟩ := List.mem_filter.mp hx
    simp only [sqlFirst]
    exact congrArg Except.ok (hinj x r hxl hr hxp hp)

theorem sqlFirst_filter_none {α : Type} {l : List α} {p : α → Bool}
    (h : ∀ x ∈ l, p x = false) :
    sqlFirst (l.filter p) = .error .panicOutOfBounds := by
  have : l.filter p = [] := by
    rw [List.filter_eq_nil_iff]
    intro a ha
    rw [h a ha]
    exact Bool.false_ne_true
  rw [this]
  rfl

theorem sqlFirst_filter_exists {α : Type} {l : List α} {p : α → Bool}
    (h : ∃ r ∈ l, p r = true) :
    ∃ r, sqlFirst (l.filter p) = .ok r ∧ r ∈ l ∧ p r = true := by
  cases hf : l.filter p with
  | nil =>
    rw [List.filter_eq_nil_iff] at hf
    obtain ⟨r, hr, hp⟩ := h
    exact absurd hp (hf r hr)
  | cons x xs =>
    have hx : x ∈ l.filter p := by rw [hf]; exact List.mem_cons_self x xs
    obtain ⟨hxl, hxp⟩ := List.mem_filter.mp hx
    exact ⟨x, rfl, hxl, hxp⟩

theorem sqlFirst_filter_ne {α : Type} (l : List α) (p : α → Bool) (e : Err)
    (he : e ≠ .panicOutOfBounds) :
    sqlFirst (l.filter p) ≠ .error e := by
  cases l.filter p with
  | nil => simp only [sqlFirst]; intro h; exact he (Except.error.inj h).symm
  | cons x xs => simp [sqlFirst]

theorem le_foldr_max {l : List Nat} {x : Nat} (h : x ∈ l) :
    x ≤ l.foldr max 0 := by
  induction l with
  | nil => cases h
  | cons y ys ih =>
    rcases List.mem_cons.mp h with h1 | h2
    · subst h1; exact Nat.le_max_left _ _
    · exact Nat.le_trans (ih h2) (Nat.le_max_right _ _)

theorem freshId_not_mem {l : List Nat} : ∀ x ∈ l, x ≠ freshId l := by
  intro x hx
  have := le_foldr_max hx
  unfold freshId
  omega

theorem account_lookup_ok {s : Store} {i : Id} {acc : AccountRow}
    (h : Store.account s i = .ok acc) :
    acc ∈ s.accounts ∧ acc.id = i ∧ acc.removed = none := by
  obtain ⟨hm, hp⟩ := sqlFirst_filter_ok h
  simp only [Bool.and_eq_true, beq_iff_eq, Option.isNone_iff_eq_none] at hp
  exact ⟨hm, hp.1, hp.2⟩

theorem transaction_lookup_ok {s : Store} {i : Id} {tx : TransactionRow}
    (h : Store.transaction s i = .ok tx) :
    tx ∈ s.transactions ∧ tx.id = i ∧ tx.removed = none := by
  obtain ⟨hm, hp⟩ := sqlFirst_filter_ok h
  simp only [Bool.and_eq_true, beq_iff_eq, Option.isNone_iff_eq_none] at hp
  exact ⟨hm, hp.1, hp.2⟩

theorem add_transaction_ok {s s1 : Store} {t : Transaction}
    (h : Store.add_transaction s t = .ok s1) :
    ∃ i created, t.meta_info.added_timestamp = some created ∧
      (∀ r ∈ s.transactions, r.id ≠ i) ∧
      s1 = { s with transactions := s.transactions ++
        [⟨i, t.timestamp, t.description, t.account_id, t.category_id,
          t.amount, t.meta_info.origin, created, none, none⟩] } := by
  unfold Store.add_transaction at h
  cases hts : t.meta_info.added_timestamp with
  | none => rw [hts] at h; cases h
  | some created =>
    rw [hts] at h
    dsimp only at h
    cases hid : t.id with
    | some i =>
      rw [hid] at h
      dsimp only at h
      by_cases hany : s.transactions.any (fun r => r.id == i) = true
      · rw [if_pos hany] at h; cases h
      · rw [if_neg hany] at h
        refine ⟨i, created, rfl, ?_, (Except.ok.inj h).symm⟩
        intro r hr
        have hfalse : s.transactions.any (fun r => r.id == i) = false :=
          eq_false_of_ne_true hany
        have := List.any_eq_false.mp hfalse r hr
        simpa using this
    | none =>
      rw [hid] at h
      dsimp only at h
      refine ⟨freshId (s.transactions.map (fun r => r.id)), created, rfl,
        ?_, (Except.ok.inj h).symm⟩
      intro r hr
      exact freshId_not_mem r.id (List.mem_map.mpr ⟨r, hr, rfl⟩)

theorem update_account_accounts (s : Store) (a : Account) :
    (Store.update_account s a).accounts = s.accounts.map
      (fun r => if a.id == some r.id && r.removed.isNone then
          { r with name := a.name, balance := a.balance }
        else r) := rfl

theorem update_account_frame (s : Store) (a : Account) :
    (Store.update_account s a).transactions = s.transactions ∧
    (Store.update_account s a).categories = s.categories ∧
    (Store.update_account s a).plans = s.plans :=
  ⟨rfl, rfl, rfl⟩

theorem remove_transaction_frame (s : Store) (i : Id) (ts : Timestamp) :
    (Store.remove_transaction s i ts).accounts = s.accounts ∧
    (Store.remove_transaction s i ts).categories = s.categories ∧
    (Store.remove_transaction s i ts).plans = s.plans :=
  ⟨rfl, rfl, rfl⟩

theorem txSum_append (l1 l2 : List TransactionRow) (aid : Id) :
    txSum (l1 ++ l2) aid = txSum l1 aid + txSum l2 aid := by
  unfold txSum
  rw [List.map_append, List.sum_append]

theorem txSum_singleton (r : TransactionRow) (aid : Id) :
    txSum [r] aid = txContribution aid r := by
  unfold txSum
  simp

theorem txSum_map_tombstone {l : List TransactionRow}
    (hpw : l.Pairwise (fun a b => a.id ≠ b.id)) {tx : TransactionRow}
    (htx : tx ∈ l) {i : Id} (hid : tx.id = i) (ts : Timestamp) (aid : Id) :
    txSum (l.map (fun r => if r.id == i then { r with removed := some ts }
        else r)) aid
      = txSum l aid - txContribution aid tx := by
  induction l with
  | nil => cases htx
  | cons x xs ih =>
    rw [List.pairwise_cons] at hpw
    rcases List.mem_cons.mp htx with h1 | h2
    · subst h1
      have hx : (tx.id == i) = true := by simpa using hid
      have hxs : xs.map (fun r => if r.id == i then
          { r with removed := some ts } else r) = xs := by
        apply map_eq_self_of_eq
        intro r hr
        have : r.id ≠ i := by rw [← hid]; exact (hpw.1 r hr).symm
        simp [this]
      simp only [List.map_cons, hx, if_true, hxs]
      unfold txSum txContribution
      simp only [List.map_cons, List.sum_cons]
      simp only [and_false, if_false, reduceCtorEq]
      ring
    · have hxne : (x.id == i) = false := by
        have : x.id ≠ i := by rw [← hid]; exact hpw.1 tx h2
        simpa using this
      simp only [List.map_cons, hxne, if_false, Bool.false_eq_true]
      unfold txSum
      simp only [List.map_cons, List.sum_cons]
      have := ih hpw.2 h2
      unfold txSum at this
      rw [this]
      ring

theorem update_row_id (oi : Option Id) (nm : String) (bal : Int)
    (r : AccountRow) :
    (if oi == some r.id && r.removed.isNone then
        { r with name := nm, balance := bal } else r).id = r.id := by
  split <;> rfl

theorem update_row_removed (oi : Option Id) (nm : String) (bal : Int)
    (r : AccountRow) :
    (if oi == some r.id && r.removed.isNone then
        { r with name := nm, balance := bal } else r).removed = r.removed := by
  split <;> rfl

theorem add_transaction_preserves {s s2 : Store} (h : BudgetInv s)
    {t : Transaction} (hres : Budget.add_transaction s t = .ok s2) :
    BudgetInv s2 := by
  unfold Budget.add_transaction at hres
  cases hacc : Store.account s t.account_id with
  | error e => rw [hacc] at hres; cases hres
  | ok acc =>
    rw [hacc] at hres
    dsimp only at hres
    cases hadd : Store.add_transaction s t with
    | error e => rw [hadd] at hres; cases hres
    | ok s1 =>
      rw [hadd] at hres
      dsimp only at hres
      obtain ⟨haccmem, haccid, haccrm⟩ := account_lookup_ok hacc
      obtain ⟨i, created, hts, hfresh, hs1⟩ := add_transaction_ok hadd
      have hs2 : s2 = Store.update_account s1
          (accountOfRow { acc with balance := acc.balance + t.amount }) :=
        (Except.ok.inj hres).symm
      subst hs1
      subst hs2
      simp only [Store.update_account, accountOfRow] at *
      constructor
      · constructor
        · rw [List.pairwise_map]
          refine h.1.1.imp ?_
          intro a b hab
          rw [update_row_id, update_row_id]
          exact hab
        · rw [List.pairwise_append]
          refine ⟨h.1.2, List.pairwise_singleton _ _, ?_⟩
          intro a ha b hb
          rw [List.mem_singleton] at hb
          subst hb
          exact hfresh a ha
      · intro a' ha' ha'rm
        rw [List.mem_map] at ha'
        obtain ⟨a, hamem, hfa⟩ := ha'
        by_cases hcond : acc.id = a.id ∧ a.removed = none
        · have haeq : a = acc :=
            pairwise_key_inj (k := fun r => r.id) h.1.1 hamem haccmem hcond.1.symm
          subst haeq
          have hct : (some a.id == some a.id && a.removed.isNone) = true := by
            simp [hcond.2]
          rw [if_pos hct] at hfa
          subst hfa
          simp only
          rw [txSum_append, txSum_singleton]
          have hcontrib : txContribution a.id
              ⟨i, t.timestamp, t.description, t.account_id, t.category_id,
                t.amount, t.meta_info.origin, created, none, none⟩ = t.amount := by
            unfold txContribution
            rw [if_pos ⟨haccid.symm, rfl⟩]
          rw [hcontrib]
          have hbal := h.2 a hamem haccrm
          omega
        · have hcf : (some acc.id == some a.id && a.removed.isNone) = false := by
            rw [Bool.and_eq_false_iff]
            by_cases h1 : acc.id = a.id
            · right
              cases hrm : a.removed with
              | none => exact absurd ⟨h1, hrm⟩ hcond
              | some v => simp
            · left; simp [h1]
          rw [if_neg (by rw [hcf]; exact Bool.false_ne_true)] at hfa
          subst hfa
          have hrmA : a.removed = none := ha'rm
          have hne : acc.id ≠ a.id := fun he => hcond ⟨he, hrmA⟩
          rw [txSum_append, txSum_singleton]
          have hcontrib : txContribution a.id
              ⟨i, t.timestamp, t.description, t.account_id, t.category_id,
                t.amount, t.meta_info.origin, created, none, none⟩ = 0 := by
            unfold txContribution
            rw [if_neg]
            intro hcc
            exact hne (haccid ▸ hcc.1.symm ▸ rfl)
          rw [hcontrib]
          have hbal := h.2 a hamem hrmA
          omega

theorem remove_transaction_preserves {s s2 : Store} (h : BudgetInv s)
    {i : Id} {ts : Timestamp}
    (hres : Budget.remove_transaction s i false ts = .ok s2) :
    BudgetInv s2 := by
  unfold Budget.remove_transaction at hres
  rw [if_neg (by simp)] at hres
  cases htx : Store.transaction s i with
  | error e => rw [htx] at hres; cases hres
  | ok tx =>
    rw [htx] at hres
    dsimp only at hres
    cases hacc : Store.account s tx.account_id with
    | error e => rw [hacc] at hres; cases hres
    | ok acc =>
      rw [hacc] at hres
      dsimp only at hres
      obtain ⟨htxmem, htxid, htxrm⟩ := transaction_lookup_ok htx
      obtain ⟨haccmem, haccid, haccrm⟩ := account_lookup_ok hacc
      have hs2 : s2 = Store.remove_transaction
          (Store.update_account s
            (accountOfRow { acc with balance := acc.balance - tx.amount }))
          i ts :=
        (Except.ok.inj hres).symm
      subst hs2
      simp only [Store.remove_transaction, Store.update_account,
        accountOfRow] at *
      constructor
      · constructor
        · rw [List.pairwise_map]
          refine h.1.1.imp ?_
          intro a b hab
          rw [update_row_id, update_row_id]
          exact hab
        · rw [List.pairwise_map]
          refine h.1.2.imp ?_
          intro a b hab
          have hida : (if a.id == i then { a with removed := some ts }
              else a).id = a.id := by split <;> rfl
          have hidb : (if b.id == i then { b with removed := some ts }
              else b).id = b.id := by split <;> rfl
          rw [hida, hidb]
          exact hab
      · intro a' ha' ha'rm
        rw [List.mem_map] at ha'
        obtain ⟨a, hamem, hfa⟩ := ha'
        have hsum := txSum_map_tombstone h.1.2 htxmem htxid ts
        by_cases hcond : acc.id = a.id ∧ a.removed = none
        · have haeq : a = acc :=
            pairwise_key_inj (k := fun r => r.id) h.1.1 hamem haccmem hcond.1.symm
          subst haeq
          have hct : (some a.id == some a.id && a.removed.isNone) = true := by
            simp [hcond.2]
          rw [if_pos hct] at hfa
          subst hfa
          simp only
          rw [hsum a.id]
          have hcontrib : txContribution a.id tx = tx.amount := by
            unfold txContribution
            rw [if_pos ⟨haccid.symm, htxrm⟩]
          rw [hcontrib]
          have hbal := h.2 a hamem haccrm
          omega
        · have hcf : (some acc.id == some a.id && a.removed.isNone) = false := by
            rw [Bool.and_eq_false_iff]
            by_cases h1 : acc.id = a.id
            · right
              cases hrm : a.removed with
              | none => exact absurd ⟨h1, hrm⟩ hcond
              | some v => simp
            · left; simp [h1]
          rw [if_neg (by rw [hcf]; exact Bool.false_ne_true)] at hfa
          subst hfa
          have hrmA : a.removed = none := ha'rm
          have hne : acc.id ≠ a.id := fun he => hcond ⟨he, hrmA⟩
          rw [hsum a.id]
          have hcontrib : txContribution a.id tx = 0 := by
            unfold txContribution
            rw [if_neg]
            intro hcc
            exact hne (haccid ▸ hcc.1.symm ▸ rfl)
          rw [hcontrib]
          have hbal := h.2 a hamem hrmA
          omega

theorem applyTxOp_preserves {s : Store} (h : BudgetInv s) (op : TxOp) :
    BudgetInv (applyTxOp s op) := by
  cases op with
  | add t =>
    have heq : applyTxOp s (TxOp.add t) =
        (match Budget.add_transaction s t with
         | .ok s1 => s1
         | .error _ => s) := rfl
    rw [heq]
    cases hres : Budget.add_transaction s t with
    | error e => exact h
    | ok s2 => exact add_transaction_preserves h hres
  | remove i ts =>
    have heq : applyTxOp s (TxOp.remove i ts) =
        (match Budget.remove_transaction s i false ts with
         | .ok s1 => s1
         | .error _ => s) := rfl
    rw [heq]
    cases hres : Budget.remove_transaction s i false ts with
    | error e => exact h
    | ok s2 => exact remove_transaction_preserves h hres

theorem runTxOps_preserves (ops : List TxOp) :
    ∀ s : Store, BudgetInv s → BudgetInv (runTxOps ops s) := by
  induction ops with
  | nil => intro s h; exact h
  | cons op rest ih =>
    intro s h
    exact ih (applyTxOp s op) (applyTxOp_preserves h op)

theorem runMergeOps_append (l1 l2 : List MergeOp) (s : Store) :
    runMergeOps (l1 ++ l2) s = stepThen (runMergeOps l1 s) (runMergeOps l2) := by
  induction l1 generalizing s with
  | nil => rfl
  | cons op rest ih =>
    rw [List.cons_append]
    show (match applyMergeOp s op with
      | .error e => (s, some e)
      | .ok s1 => runMergeOps (rest ++ l2) s1) = _
    cases hop : applyMergeOp s op with
    | error e =>
      show (s, some e) = stepThen
        (match applyMergeOp s op with
         | .error e => (s, some e)
         | .ok s1 => runMergeOps rest s1) (runMergeOps l2)
      rw [hop]
      rfl
    | ok s1 =>
      show runMergeOps (rest ++ l2) s1 = stepThen
        (match applyMergeOp s op with
         | .error e => (s, some e)
         | .ok s1 => runMergeOps rest s1) (runMergeOps l2)
      rw [hop]
      exact ih s1

theorem merge_step_eq_runMergeOps {α : Type} (flt : α → Option Bool)
    (p : α → Bool) (mk : α → MergeOp) (items : List α)
    (hflt : ∀ r ∈ items, flt r = some (p r)) (s : Store) :
    merge_step flt (fun r s => applyMergeOp s (mk r)) items s
      = runMergeOps ((items.filter p).map mk) s := by
  induction items generalizing s with
  | nil => rfl
  | cons r rest ih =>
    have hr := hflt r (List.mem_cons_self r rest)
    have hrest : ∀ x ∈ rest, flt x = some (p x) :=
      fun x hx => hflt x (List.mem_cons_of_mem r hx)
    show (match flt r with
      | none => (s, some Err.panicUnwrap)
      | some false => merge_step flt (fun r s => applyMergeOp s (mk r)) rest s
      | some true =>
        match applyMergeOp s (mk r) with
        | .error e => (s, some e)
        | .ok s1 => merge_step flt (fun r s => applyMergeOp s (mk r)) rest s1) = _
    rw [hr]
    cases hp : p r with
    | false =>
      show merge_step flt (fun r s => applyMergeOp s (mk r)) rest s = _
      rw [List.filter_cons_of_neg (by rw [hp]; exact Bool.false_ne_true)]
      exact ih hrest s
    | true =>
      show (match applyMergeOp s (mk r) with
        | .error e => (s, some e)
        | .ok s1 => merge_step flt (fun r s => applyMergeOp s (mk r)) rest s1) = _
      rw [List.filter_cons_of_pos hp, List.map_cons]
      cases hop : applyMergeOp s (mk r) with
      | error e =>
        show (s, some e) = runMergeOps (mk r :: (rest.filter p).map mk) s
        show (s, some e) = (match applyMergeOp s (mk r) with
          | .error e => (s, some e)
          | .ok s1 => runMergeOps ((rest.filter p).map mk) s1)
        rw [hop]
      | ok s1 =>
        show merge_step flt (fun r s => applyMergeOp s (mk r)) rest s1
          = runMergeOps (mk r :: (rest.filter p).map mk) s
        show merge_step flt (fun r s => applyMergeOp s (mk r)) rest s1
          = (match applyMergeOp s (mk r) with
             | .error e => (s, some e)
             | .ok s1 => runMergeOps ((rest.filter p).map mk) s1)
        rw [hop]
        exact ih hrest s1

theorem merge_step_all_skipped {α : Type} (flt : α → Option Bool)
    (op : α → Store → Except Err Store) (items : List α)
    (hflt : ∀ r ∈ items, flt r = some false) (s : Store) :
    merge_step flt op items s = (s, none) := by
  induction items with
  | nil => rfl
  | cons r rest ih =>
    have hr := hflt r (List.mem_cons_self r rest)
    show (match flt r with
      | none => (s, some Err.panicUnwrap)
      | some false => merge_step flt op rest s
      | some true =>
        match op r s with
        | .error e => (s, some e)
        | .ok s1 => merge_step flt op rest s1) = _
    rw [hr]
    exact ih (fun x hx => hflt x (List.mem_cons_of_mem r hx))

theorem stepThen_congr {r1 r2 : Store × Option Err}
    {f g : Store → Store × Option Err} (hr : r1 = r2)
    (hf : ∀ s, f s = g s) : stepThen r1 f = stepThen r2 g := by
  subst hr
  cases r1 with
  | mk s e =>
    cases e with
    | none => exact hf s
    | some e => rfl

theorem addedFilter_eq_spec (inst : Nat) (ls : Timestamp) (m : MetaInfo)
    (h : m.added_timestamp.isSome) :
    addedFilter inst ls m
      = some (specPasses inst ls m.origin m.added_timestamp) := by
  cases hts : m.added_timestamp with
  | none => rw [hts] at h; cases h
  | some v =>
    unfold addedFilter specPasses
    rw [hts]
    dsimp only
    rw [Bool.and_comm]

theorem removedFilter_eq_spec (inst : Nat) (ls : Timestamp) (m : MetaInfo)
    (h : m.removed_timestamp.isSome) :
    removedFilter inst ls m
      = some (specPasses inst ls m.origin m.removed_timestamp) := by
  cases hts : m.removed_timestamp with
  | none => rw [hts] at h; cases h
  | some v =>
    unfold removedFilter specPasses
    rw [hts]
    dsimp only
    rw [Bool.and_comm]

theorem addedFilter_stale {inst : Nat} {ls : Timestamp} {m : MetaInfo}
    (h : relevantStale inst ls m.origin m.added_timestamp = true) :
    addedFilter inst ls m = some false := by
  cases hts : m.added_timestamp with
  | none => unfold relevantStale at h; rw [hts] at h; cases h
  | some v =>
    unfold relevantStale at h
    rw [hts] at h
    dsimp only at h
    rw [Bool.or_eq_true, decide_eq_true_eq, decide_eq_true_eq] at h
    unfold addedFilter
    rw [hts]
    dsimp only
    cases h with
    | inl hlt =>
      have hn : ¬ ls ≤ v := not_le.mpr hlt
      simp [hn]
    | inr horig =>
      simp [horig]

theorem removedFilter_stale {inst : Nat} {ls : Timestamp} {m : MetaInfo}
    (h : relevantStale inst ls m.origin m.removed_timestamp = true) :
    removedFilter inst ls m = some false := by
  cases hts : m.removed_timestamp with
  | none => unfold relevantStale at h; rw [hts] at h; cases h
  | some v =>
    unfold relevantStale at h
    rw [hts] at h
    dsimp only at h
    rw [Bool.or_eq_true, decide_eq_true_eq, decide_eq_true_eq] at h
    unfold removedFilter
    rw [hts]
    dsimp only
    cases h with
    | inl hlt =>
      have hn : ¬ ls ≤ v := not_le.mpr hlt
      simp [hn]
    | inr horig =>
      simp [horig]

/-- C1: Balance invariant. After any sequence of Budget::add_transaction and
non-emergency Budget::remove_transaction calls on a store satisfying the
primary-key discipline and the balance equation, every non-removed account
balance equals its initial balance plus the sum of the amounts of the
non-removed transactions referencing that account. -/
theorem C1_balance_invariant (ops : List TxOp) (s : Store)
    (h : BudgetInv s) : BalanceEq (runTxOps ops s) :=
  (runTxOps_preserves ops s h).2

/-- Witness for C1 at a concrete store and call sequence. -/
theorem C1_balance_invariant_witness :
    BudgetInv sampleStore ∧ BalanceEq (runTxOps sampleTxOps sampleStore) :=
  ⟨by decide, C1_balance_invariant sampleTxOps sampleStore (by decide)⟩

/-- C2: Budget::merge_changes applies to the local store exactly the rows of
the remote changelog whose meta origin differs from this instance and whose
relevant meta timestamp (added_timestamp for additions, removed_timestamp for
removals) is at least last_sync, in the fixed deterministic order additions
accounts, categories, plans, transactions followed by removals transactions,
plans, categories, accounts. The hypothesis states that every examined row
carries the timestamp its filter unwraps. -/
theorem C2_merge_order_and_filter (inst : Nat) (ls : Timestamp)
    (c : Changelog) (s : Store) (h : WellTimed c) :
    merge_changes inst ls c s = runMergeOps (specMergeOps inst ls c) s := by
  obtain ⟨h1, h2, h3, h4, h5, h6, h7, h8⟩ := h
  have e1 : ∀ s0 : Store,
      merge_step (fun x => addedFilter inst ls x.meta_info)
        (fun x s => applyMergeOp s (.addAccount x)) c.accounts.added s0
      = runMergeOps ((c.accounts.added.filter (fun x =>
          specPasses inst ls x.meta_info.origin x.meta_info.added_timestamp)).map
            .addAccount) s0 :=
    fun s0 => merge_step_eq_runMergeOps _ _ _ _
      (fun r hr => addedFilter_eq_spec inst ls r.meta_info (h1 r hr)) s0
  have e2 : ∀ s0 : Store,
      merge_step (fun x => addedFilter inst ls x.meta_info)
        (fun x s => applyMergeOp s (.addCategory x)) c.categories.added s0
      = runMergeOps ((c.categories.added.filter (fun x =>
          specPasses inst ls x.meta_info.origin x.meta_info.added_timestamp)).map
            .addCategory) s0 :=
    fun s0 => merge_step_eq_runMergeOps _ _ _ _
      (fun r hr => addedFilter_eq_spec inst ls r.meta_info (h2 r hr)) s0
  have e3 : ∀ s0 : Store,
      merge_step (fun x => addedFilter inst ls x.meta_info)
        (fun x s => applyMergeOp s (.addPlan x)) c.plans.added s0
      = runMergeOps ((c.plans.added.filter (fun x =>
          specPasses inst ls x.meta_info.origin x.meta_info.added_timestamp)).map
            .addPlan) s0 :=
    fun s0 => merge_step_eq_runMergeOps _ _ _ _
      (fun r hr => addedFilter_eq_spec inst ls r.meta_info (h3 r hr)) s0
  have e4 : ∀ s0 : Store,
      merge_step (fun x => addedFilter inst ls x.meta_info)
        (fun x s => applyMergeOp s (.addTransaction x)) c.transactions.added s0
      = runMergeOps ((c.transactions.added.filter (fun x =>
          specPasses inst ls x.meta_info.origin x.meta_info.added_timestamp)).map
            .addTransaction) s0 :=
    fun s0 => merge_step_eq_runMergeOps _ _ _ _
      (fun r hr => addedFilter_eq_spec inst ls r.meta_info (h4 r hr)) s0
  have e5 : ∀ s0 : Store,
      merge_step (fun x => removedFilter inst ls x.meta_info)
        (fun x s => applyMergeOp s (.removeTransaction x)) c.transactions.removed s0
      = runMergeOps ((c.transactions.removed.filter (fun x =>
          specPasses inst ls x.meta_info.origin x.meta_info.removed_timestamp)).map
            .removeTransaction) s0 :=
    fun s0 => merge_step_eq_runMergeOps _ _ _ _
      (fun r hr => removedFilter_eq_spec inst ls r.meta_info (h5 r hr)) s0
  have e6 : ∀ s0 : Store,
      merge_step (fun x => removedFilter inst ls x.meta_info)
        (fun x s => applyMergeOp s (.removePlan x)) c.plans.removed s0
      = runMergeOps ((c.plans.removed.filter (fun x =>
          specPasses inst ls x.meta_info.origin x.meta_info.removed_timestamp)).map
            .removePlan) s0 :=
    fun s0 => merge_step_eq_runMergeOps _ _ _ _
      (fun r hr => removedFilter_eq_spec inst ls r.meta_info (h6 r hr)) s0
  have e7 : ∀ s0 : Store,
      merge_step (fun x => removedFilter inst ls x.meta_info)
        (fun x s => applyMergeOp s (.removeCategory x)) c.categories.removed s0
      = runMergeOps ((c.categories.removed.filter (fun x =>
          specPasses inst ls x.meta_info.origin x.meta_info.removed_timestamp)).map
            .removeCategory) s0 :=
    fun s0 => merge_step_eq_runMergeOps _ _ _ _
      (fun r hr => removedFilter_eq_spec inst ls r.meta_info (h7 r hr)) s0
  have e8 : ∀ s0 : Store,
      merge_step (fun x => removedFilter inst ls x.meta_info)
        (fun x s => applyMergeOp s (.removeAccount x)) c.accounts.removed s0
      = runMergeOps ((c.accounts.removed.filter (fun x =>
          specPasses inst ls x.meta_info.origin x.meta_info.removed_timestamp)).map
            .removeAccount) s0 :=
    fun s0 => merge_step_eq_runMergeOps _ _ _ _
      (fun r hr => removedFilter_eq_spec inst ls r.meta_info (h8 r hr)) s0
  unfold merge_changes specMergeOps
  rw [runMergeOps_append]
  refine stepThen_congr (e1 s) (fun s1 => ?_)
  rw [runMergeOps_append]
  refine stepThen_congr (e2 s1) (fun s2 => ?_)
  rw [runMergeOps_append]
  refine stepThen_congr (e3 s2) (fun s3 => ?_)
  rw [runMergeOps_append]
  refine stepThen_congr (e4 s3) (fun s4 => ?_)
  rw [runMergeOps_append]
  refine stepThen_congr (e5 s4) (fun s5 => ?_)
  rw [runMergeOps_append]
  refine stepThen_congr (e6 s5) (fun s6 => ?_)
  rw [runMergeOps_append]
  refine stepThen_congr (e7 s6) (fun s7 => ?_)
  exact e8 s7

/-- Witness for C2 at a concrete changelog and store. -/
theorem C2_merge_order_and_filter_witness :
    merge_changes 1 10 sampleChangelog sampleStore
      = runMergeOps (specMergeOps 1 10 sampleChangelog) sampleStore :=
  C2_merge_order_and_filter 1 10 sampleChangelog sampleStore (by decide)

/-- C4 counterexample: merging the same remote changelog twice with the same
last_sync does not yield the same store state as merging it once. The
changelog holds one foreign account addition without an explicit id; the
origin-plus-timestamp filter passes it again on the second merge (last_sync
is unchanged), so the row is inserted a second time under a fresh id. -/
theorem C4_merge_twice_counterexample :
    (merge_changes 1 10 idlessChangelog
        (merge_changes 1 10 idlessChangelog emptyStore).1).1
      ≠ (merge_changes 1 10 idlessChangelog emptyStore).1 := by decide

/-- C4 amended: the origin-plus-timestamp filter excludes a changelog row
only once last_sync has advanced past its timestamp (or the row originated on
this instance); merging a changelog all of whose rows are stale in this sense
applies nothing and leaves the store unchanged. -/
theorem C4_merge_stale_changelog_is_noop (inst : Nat) (ls : Timestamp)
    (c : Changelog) (s : Store) (h : AllFiltered inst ls c) :
    merge_changes inst ls c s = (s, none) := by
  obtain ⟨h1, h2, h3, h4, h5, h6, h7, h8⟩ := h
  have k1 : merge_step (fun x => addedFilter inst ls x.meta_info)
      (fun x s => applyMergeOp s (.addAccount x)) c.accounts.added s
      = (s, none) :=
    merge_step_all_skipped _ _ _ (fun r hr => addedFilter_stale (h1 r hr)) s
  have k2 : merge_step (fun x => addedFilter inst ls x.meta_info)
      (fun x s => applyMergeOp s (.addCategory x)) c.categories.added s
      = (s, none) :=
    merge_step_all_skipped _ _ _ (fun r hr => addedFilter_stale (h2 r hr)) s
  have k3 : merge_step (fun x => addedFilter inst ls x.meta_info)
      (fun x s => applyMergeOp s (.addPlan x)) c.plans.added s
      = (s, none) :=
    merge_step_all_skipped _ _ _ (fun r hr => addedFilter_stale (h3 r hr)) s
  have k4 : merge_step (fun x => addedFilter inst ls x.meta_info)
      (fun x s => applyMergeOp s (.addTransaction x)) c.transactions.added s
      = (s, none) :=
    merge_step_all_skipped _ _ _ (fun r hr => addedFilter_stale (h4 r hr)) s
  have k5 : merge_step (fun x => removedFilter inst ls x.meta_info)
      (fun x s => applyMergeOp s (.removeTransaction x)) c.transactions.removed s
      = (s, none) :=
    merge_step_all_skipped _ _ _ (fun r hr => removedFilter_stale (h5 r hr)) s
  have k6 : merge_step (fun x => removedFilter inst ls x.meta_info)
      (fun x s => applyMergeOp s (.removePlan x)) c.plans.removed s
      = (s, none) :=
    merge_step_all_skipped _ _ _ (fun r hr => removedFilter_stale (h6 r hr)) s
  have k7 : merge_step (fun x => removedFilter inst ls x.meta_info)
      (fun x s => applyMergeOp s (.removeCategory x)) c.categories.removed s
      = (s, none) :=
    merge_step_all_skipped _ _ _ (fun r hr => removedFilter_stale (h7 r hr)) s
  have k8 : merge_step (fun x => removedFilter inst ls x.meta_info)
      (fun x s => applyMergeOp s (.removeAccount x)) c.accounts.removed s
      = (s, none) :=
    merge_step_all_skipped _ _ _ (fun r hr => removedFilter_stale (h8 r hr)) s
  unfold merge_changes
  rw [k1]
  simp only [stepThen]
  rw [k2]
  simp only [stepThen]
  rw [k3]
  simp only [stepThen]
  rw [k4]
  simp only [stepThen]
  rw [k5]
  simp only [stepThen]
  rw [k6]
  simp only [stepThen]
  rw [k7]
  simp only [stepThen]
  exact k8

/-- Witness for the amended C4 at a concrete changelog whose rows all lie
below the advanced last_sync. -/
theorem C4_merge_stale_changelog_is_noop_witness :
    merge_changes 1 20 sampleChangelog sampleStore = (sampleStore, none) :=
  C4_merge_stale_changelog_is_noop 1 20 sampleChangelog sampleStore (by decide)

/-- C5 counterexample: with non-empty timestamp and instance files but an
empty changelog file (sizes 8, 16, 0), empty_sync_files reports the files as
non-empty instead of failing with MalformedArtifact, and the sync cycle
proceeds to decryption (the decode continuation is invoked). -/
theorem C5_two_nonempty_counterexample :
    empty_sync_files 8 16 0 = .ok false ∧
    acquireChangelog 8 16 0 (fun _ => .error .decryptionError)
      = .error .decryptionError :=
  ⟨rfl, rfl⟩

/-- C5 amended: all three files empty starts the cycle from the empty
changelog with no decryption; timestamp and instance both non-empty proceeds
(whatever the changelog size, including zero); only when the timestamp or the
instance file is empty (and not all three are) does the cycle fail before any
decryption. -/
theorem C5_empty_sync_files_characterization (t i c : Nat) :
    (t = 0 ∧ i = 0 ∧ c = 0 →
      empty_sync_files t i c = .ok true ∧
      ∀ d, acquireChangelog t i c d = .ok Changelog.new) ∧
    (1 ≤ t → 1 ≤ i → empty_sync_files t i c = .ok false) ∧
    ((t = 0 ∨ i = 0) → ¬(t = 0 ∧ i = 0 ∧ c = 0) →
      empty_sync_files t i c = .error .malformedArtifact ∧
      ∀ d, acquireChangelog t i c d = .error .malformedArtifact) := by
  refine ⟨?_, ?_, ?_⟩
  · rintro ⟨rfl, rfl, rfl⟩
    exact ⟨rfl, fun d => rfl⟩
  · intro ht hi
    cases t with
    | zero => omega
    | succ t1 =>
      cases i with
      | zero => omega
      | succ i1 => rfl
  · intro hor hne
    cases t with
    | zero =>
      cases i with
      | zero =>
        cases c with
        | zero => exact absurd ⟨rfl, rfl, rfl⟩ hne
        | succ c1 => exact ⟨rfl, fun d => rfl⟩
      | succ i1 => exact ⟨rfl, fun d => rfl⟩
    | succ t1 =>
      cases i with
      | zero => exact ⟨rfl, fun d => rfl⟩
      | succ i1 =>
        rcases hor with h0 | h0 <;> cases h0

/-- Witness for the amended C5 at the all-empty input. -/
theorem C5_empty_sync_files_characterization_witness :
    empty_sync_files 0 0 0 = .ok true ∧
    ∀ d, acquireChangelog 0 0 0 d = .ok Changelog.new :=
  (C5_empty_sync_files_characterization 0 0 0).1 ⟨rfl, rfl, rfl⟩

theorem filter_length_pos_iff {α : Type} (l : List α) (p : α → Bool) :
    (0 < (l.filter p).length) ↔ ∃ x ∈ l, p x = true := by
  rw [List.length_pos_iff_exists_mem]
  constructor
  · rintro ⟨x, hx⟩
    obtain ⟨hm, hp⟩ := List.mem_filter.mp hx
    exact ⟨x, hm, hp⟩
  · rintro ⟨x, hm, hp⟩
    exact ⟨x, List.mem_filter.mpr ⟨hm, hp⟩⟩

/-- C6: referential integrity on removal. Store::remove_account fails, with
ConsistencyViolation, exactly when a non-removed transaction references the
account; for a non-predefined category, Store::remove_category fails with
ConsistencyViolation exactly when a non-removed transaction or plan
references it; removing either predefined transfer category id fails with
CannotDeletePredefined. -/
theorem C6_referential_integrity (s : Store) (a : Id) (ts : Timestamp) :
    ((∃ e, Store.remove_account s a ts = .error e) ↔
      ∃ t ∈ s.transactions, t.account_id = a ∧ t.removed = none) ∧
    (Store.remove_account s a ts = .error .consistencyViolation ↔
      ∃ t ∈ s.transactions, t.account_id = a ∧ t.removed = none) ∧
    (∀ ci : Id, (ci = TRANSFER_INCOME_ID ∨ ci = TRANSFER_OUTCOME_ID) →
      Store.remove_category s ci ts = .error .cannotDeletePredefined) ∧
    (∀ ci : Id, ci ≠ TRANSFER_INCOME_ID → ci ≠ TRANSFER_OUTCOME_ID →
      (Store.remove_category s ci ts = .error .consistencyViolation ↔
        (∃ t ∈ s.transactions, t.category_id = ci ∧ t.removed = none) ∨
        (∃ p ∈ s.plans, p.category_id = ci ∧ p.removed = none))) := by
  have keyA : (0 < (s.transactions.filter
      (fun t => t.removed.isNone && t.account_id == a)).length) ↔
      ∃ t ∈ s.transactions, t.account_id = a ∧ t.removed = none := by
    rw [filter_length_pos_iff]
    constructor
    · rintro ⟨t, hm, hp⟩
      rw [Bool.and_eq_true, Option.isNone_iff_eq_none, beq_iff_eq] at hp
      exact ⟨t, hm, hp.2, hp.1⟩
    · rintro ⟨t, hm, h1, h2⟩
      exact ⟨t, hm, by simp [h1, h2]⟩
  refine ⟨?_, ?_, ?_, ?_⟩
  · constructor
    · rintro ⟨e, he⟩
      by_cases hlen : 0 < (s.transactions.filter
          (fun t => t.removed.isNone && t.account_id == a)).length
      · exact keyA.mp hlen
      · unfold Store.remove_account at he
        rw [if_neg hlen] at he
        cases he
    · intro hex
      refine ⟨.consistencyViolation, ?_⟩
      unfold Store.remove_account
      rw [if_pos (keyA.mpr hex)]
  · constructor
    · intro he
      by_cases hlen : 0 < (s.transactions.filter
          (fun t => t.removed.isNone && t.account_id == a)).length
      · exact keyA.mp hlen
      · unfold Store.remove_account at he
        rw [if_neg hlen] at he
        cases he
    · intro hex
      unfold Store.remove_account
      rw [if_pos (keyA.mpr hex)]
  · intro ci hd
    have hb : (ci == TRANSFER_INCOME_ID || ci == TRANSFER_OUTCOME_ID) = true := by
      rcases hd with rfl | rfl <;> simp
    unfold Store.remove_category
    rw [if_pos hb]
  · intro ci hn1 hn2
    have hb : (ci == TRANSFER_INCOME_ID || ci == TRANSFER_OUTCOME_ID) = false := by
      simp [hn1, hn2]
    have keyT : (0 < (s.transactions.filter
        (fun t => t.removed.isNone && t.category_id == ci)).length) ↔
        ∃ t ∈ s.transactions, t.category_id = ci ∧ t.removed = none := by
      rw [filter_length_pos_iff]
      constructor
      · rintro ⟨t, hm, hp⟩
        rw [Bool.and_eq_true, Option.isNone_iff_eq_none, beq_iff_eq] at hp
        exact ⟨t, hm, hp.2, hp.1⟩
      · rintro ⟨t, hm, h1, h2⟩
        exact ⟨t, hm, by simp [h1, h2]⟩
    have keyP : (0 < (s.plans.filter
        (fun p => p.removed.isNone && p.category_id == ci)).length) ↔
        ∃ p ∈ s.plans, p.category_id = ci ∧ p.removed = none := by
      rw [filter_length_pos_iff]
      constructor
      · rintro ⟨p, hm, hp⟩
        rw [Bool.and_eq_true, Option.isNone_iff_eq_none, beq_iff_eq] at hp
        exact ⟨p, hm, hp.2, hp.1⟩
      · rintro ⟨p, hm, h1, h2⟩
        exact ⟨p, hm, by simp [h1, h2]⟩
    unfold Store.remove_category
    rw [if_neg (by rw [hb]; exact Bool.false_ne_true)]
    by_cases hT : 0 < (s.transactions.filter
        (fun t => t.removed.isNone && t.category_id == ci)).length
    · rw [if_pos hT]
      exact ⟨fun _ => Or.inl (keyT.mp hT), fun _ => rfl⟩
    · rw [if_neg hT]
      by_cases hP : 0 < (s.plans.filter
          (fun p => p.removed.isNone && p.category_id == ci)).length
      · rw [if_pos hP]
        exact ⟨fun _ => Or.inr (keyP.mp hP), fun _ => rfl⟩
      · rw [if_neg hP]
        constructor
        · intro he
          cases he
        · intro hex
          rcases hex with hx | hx
          · exact absurd (keyT.mpr hx) hT
          · exact absurd (keyP.mpr hx) hP

/-- Witness for C6 at a concrete store with one referencing transaction. -/
theorem C6_referential_integrity_witness :
    ((∃ t ∈ c6Store.transactions, t.account_id = 1 ∧ t.removed = none) ∧
      Store.remove_account c6Store 1 99 = .error .consistencyViolation) ∧
    Store.remove_category c6Store TRANSFER_INCOME_ID 99
      = .error .cannotDeletePredefined :=
  ⟨⟨by decide, (C6_referential_integrity c6Store 1 99).2.1.mpr (by decide)⟩,
    (C6_referential_integrity c6Store 1 99).2.2.1 TRANSFER_INCOME_ID (Or.inl rfl)⟩

theorem account_exists_ok {s : Store} {i : Id}
    (h : ∃ r ∈ s.accounts, r.id = i ∧ r.removed = none) :
    ∃ acc, Store.account s i = .ok acc ∧ acc ∈ s.accounts ∧ acc.id = i ∧
      acc.removed = none := by
  obtain ⟨r, hm, h1, h2⟩ := h
  obtain ⟨acc, hk, hmem, hp⟩ :=
    sqlFirst_filter_exists (l := s.accounts)
      (p := fun r => r.id == i && r.removed.isNone)
      ⟨r, hm, by simp [h1, h2]⟩
  rw [Bool.and_eq_true, beq_iff_eq, Option.isNone_iff_eq_none] at hp
  exact ⟨acc, hk, hmem, hp.1, hp.2⟩

theorem update_account_preserves_live {s : Store} (a : Account) {i : Id}
    (h : ∃ r ∈ s.accounts, r.id = i ∧ r.removed = none) :
    ∃ r ∈ (Store.update_account s a).accounts, r.id = i ∧ r.removed = none := by
  obtain ⟨r, hm, h1, h2⟩ := h
  refine ⟨_, List.mem_map_of_mem _ hm, ?_, ?_⟩
  · rw [update_row_id]; exact h1
  · rw [update_row_removed]; exact h2

theorem budget_add_transaction_none_id (s : Store) (t : Transaction)
    (hid : t.id = none) {created : Timestamp}
    (hts : t.meta_info.added_timestamp = some created)
    {acc : AccountRow} (hacc : Store.account s t.account_id = .ok acc) :
    Budget.add_transaction s t = .ok (Store.update_account
      { s with transactions := s.transactions ++
          [⟨freshId (s.transactions.map (fun r => r.id)), t.timestamp,
            t.description, t.account_id, t.category_id, t.amount,
            t.meta_info.origin, created, none, none⟩] }
      (accountOfRow { acc with balance := acc.balance + t.amount })) := by
  have hadd : Store.add_transaction s t = .ok { s with transactions :=
      s.transactions ++
        [⟨freshId (s.transactions.map (fun r => r.id)), t.timestamp,
          t.description, t.account_id, t.category_id, t.amount,
          t.meta_info.origin, created, none, none⟩] } := by
    unfold Store.add_transaction
    rw [hts]
    dsimp only
    rw [hid]
  unfold Budget.add_transaction
  rw [hacc]
  dsimp only
  rw [hadd]

/-- C7: Budget::add_transfer inserts exactly two transactions, both posted at
the given timestamp: one on the destination account with the predefined
transfer-income category and amount plus the absolute value of the given
amount, and one on the source account with the predefined transfer-outcome
category and the negated absolute value. -/
theorem C7_add_transfer_two_legs (origin : Nat) (s : Store) (amount : Int)
    (fa ta : Id) (ts : Timestamp)
    (hfrom : ∃ r ∈ s.accounts, r.id = fa ∧ r.removed = none)
    (hto : ∃ r ∈ s.accounts, r.id = ta ∧ r.removed = none)
    (_hne : fa ≠ ta) :
    ∃ s2 i1 i2,
      Budget.add_transfer origin s amount fa ta ts = .ok s2 ∧
      s2.transactions = s.transactions ++
        [⟨i1, ts, TRANSFER_INCOME_DESCRIPTION, ta, TRANSFER_INCOME_ID,
          iabs amount, origin, ts, none, none⟩,
         ⟨i2, ts, TRANSFER_OUTCOME_DESCRIPTION, fa, TRANSFER_OUTCOME_ID,
          -(iabs amount), origin, ts, none, none⟩] := by
  obtain ⟨acc1, hacc1, _, _, _⟩ := account_exists_ok hto
  have hb1 := budget_add_transaction_none_id s
    ⟨none, ts, TRANSFER_INCOME_DESCRIPTION, ta, TRANSFER_INCOME_ID,
      iabs amount, ⟨origin, some ts, none, none⟩⟩
    rfl rfl hacc1
  obtain ⟨acc2, hacc2, _, _, _⟩ := account_exists_ok
    (update_account_preserves_live
      (s := { s with transactions := s.transactions ++
        [⟨freshId (s.transactions.map (fun r => r.id)), ts,
            TRANSFER_INCOME_DESCRIPTION, ta, TRANSFER_INCOME_ID,
            iabs amount, origin, ts, none, none⟩] })
      (accountOfRow { acc1 with balance := acc1.balance + iabs amount })
      hfrom)
  have hb2 := budget_add_transaction_none_id
    (Store.update_account
      { s with transactions := s.transactions ++
          [⟨freshId (s.transactions.map (fun r => r.id)), ts,
            TRANSFER_INCOME_DESCRIPTION, ta, TRANSFER_INCOME_ID,
            iabs amount, origin, ts, none, none⟩] }
      (accountOfRow { acc1 with balance := acc1.balance + iabs amount }))
    ⟨none, ts, TRANSFER_OUTCOME_DESCRIPTION, fa, TRANSFER_OUTCOME_ID,
      -(iabs amount), ⟨origin, some ts, none, none⟩⟩
    rfl rfl hacc2
  have htransfer : Budget.add_transfer origin s amount fa ta ts
      = Budget.add_transaction
        (Store.update_account
          { s with transactions := s.transactions ++
              [⟨freshId (s.transactions.map (fun r => r.id)), ts,
            TRANSFER_INCOME_DESCRIPTION, ta, TRANSFER_INCOME_ID,
            iabs amount, origin, ts, none, none⟩] }
          (accountOfRow { acc1 with balance := acc1.balance + iabs amount }))
        ⟨none, ts, TRANSFER_OUTCOME_DESCRIPTION, fa, TRANSFER_OUTCOME_ID,
          -(iabs amount), ⟨origin, some ts, none, none⟩⟩ := by
    simp only [Budget.add_transfer]
    rw [hb1]
  refine ⟨_, freshId (s.transactions.map (fun r => r.id)),
    freshId ((s.transactions ++
      ([⟨freshId (s.transactions.map (fun r => r.id)), ts,
            TRANSFER_INCOME_DESCRIPTION, ta, TRANSFER_INCOME_ID,
            iabs amount, origin, ts, none, none⟩] :
          List TransactionRow)).map (fun r => r.id)),
    htransfer.trans hb2, ?_⟩
  exact List.append_assoc s.transactions
    ([⟨freshId (s.transactions.map (fun r => r.id)), ts,
            TRANSFER_INCOME_DESCRIPTION, ta, TRANSFER_INCOME_ID,
            iabs amount, origin, ts, none, none⟩] : List TransactionRow)
    ([⟨freshId ((s.transactions ++
        ([⟨freshId (s.transactions.map (fun r => r.id)), ts,
            TRANSFER_INCOME_DESCRIPTION, ta, TRANSFER_INCOME_ID,
            iabs amount, origin, ts, none, none⟩] :
          List TransactionRow)).map (fun r => r.id)), ts,
      TRANSFER_OUTCOME_DESCRIPTION, fa, TRANSFER_OUTCOME_ID,
      -(iabs amount), origin, ts, none, none⟩] : List TransactionRow)

/-- Witness for C7 at the transfer scenario of the spec: 300 from account 1
to account 2 at timestamp 50. -/
theorem C7_add_transfer_two_legs_witness :
    (∃ r ∈ sampleStore.accounts, r.id = 1 ∧ r.removed = none) ∧
    (∃ r ∈ sampleStore.accounts, r.id = 2 ∧ r.removed = none) ∧
    ∃ s2 i1 i2,
      Budget.add_transfer 9 sampleStore (-300) 1 2 50 = .ok s2 ∧
      s2.transactions = sampleStore.transactions ++
        [⟨i1, 50, TRANSFER_INCOME_DESCRIPTION, 2, TRANSFER_INCOME_ID,
          iabs (-300), 9, 50, none, none⟩,
         ⟨i2, 50, TRANSFER_OUTCOME_DESCRIPTION, 1, TRANSFER_OUTCOME_ID,
          -(iabs (-300)), 9, 50, none, none⟩] :=
  ⟨by decide, by decide,
    C7_add_transfer_two_legs 9 sampleStore (-300) 1 2 50
      (by decide) (by decide) (by decide)⟩

/-- C8: SymmetricCipher::decrypt panics in slice::split_at on any input
shorter than the 12-byte nonce prefix, instead of returning a
DecryptionError. -/
theorem C8_decrypt_short_input_panics
    (aead : List Nat → List Nat → Option (List Nat)) (ct : List Nat)
    (h : ct.length < NONCE_SIZE) :
    SymmetricCipher.decrypt aead ct = .panic := by
  unfold SymmetricCipher.decrypt
  rw [if_pos h]

/-- Witness for C8 at the empty ciphertext. -/
theorem C8_decrypt_short_input_panics_witness :
    ([] : List Nat).length < NONCE_SIZE ∧
    SymmetricCipher.decrypt nullAead [] = .panic :=
  ⟨by decide, C8_decrypt_short_input_panics nullAead [] (by decide)⟩

theorem forall₂_map_self {α : Type} {R : α → α → Prop} {f : α → α} :
    ∀ {l : List α}, (∀ r ∈ l, R r (f r)) → List.Forall₂ R l (l.map f)
  | [], _ => List.Forall₂.nil
  | x :: xs, h =>
    List.Forall₂.cons (h x (List.mem_cons_self x xs))
      (forall₂_map_self (fun r hr => h r (List.mem_cons_of_mem x hr)))

theorem update_cond_false {a : Account} {r : AccountRow}
    (hc : ¬(a.id = some r.id ∧ r.removed = none)) :
    (a.id == some r.id && r.removed.isNone) = false := by
  rw [Bool.and_eq_false_iff]
  by_cases h1 : a.id = some r.id
  · right
    cases hrm : r.removed with
    | none => exact absurd ⟨h1, hrm⟩ hc
    | some v => simp
  · left
    simp [h1]

/-- C9: frame property of Store::update_account. The transactions, categories
and plans tables are untouched; row for row, the non-tombstoned account with
the given id receives the new name and balance while its id, initial balance,
origin and all meta timestamps are preserved, and every other row is
unchanged; when no non-tombstoned row carries the id, the call leaves the
store entirely unchanged (and the source always reports success). -/
theorem C9_update_account_frame (s : Store) (a : Account) :
    ((Store.update_account s a).transactions = s.transactions ∧
     (Store.update_account s a).categories = s.categories ∧
     (Store.update_account s a).plans = s.plans) ∧
    List.Forall₂ (fun r r2 : AccountRow =>
      (a.id = some r.id ∧ r.removed = none →
        r2.name = a.name ∧ r2.balance = a.balance ∧ r2.id = r.id ∧
        r2.initial_balance = r.initial_balance ∧ r2.origin = r.origin ∧
        r2.created = r.created ∧ r2.changed = r.changed ∧
        r2.removed = r.removed) ∧
      (¬(a.id = some r.id ∧ r.removed = none) → r2 = r))
      s.accounts (Store.update_account s a).accounts ∧
    ((∀ r ∈ s.accounts, ¬(a.id = some r.id ∧ r.removed = none)) →
      Store.update_account s a = s) := by
  refine ⟨⟨rfl, rfl, rfl⟩, ?_, ?_⟩
  · apply forall₂_map_self
    intro r hr
    by_cases hc : a.id = some r.id ∧ r.removed = none
    · have hb : (a.id == some r.id && r.removed.isNone) = true := by
        simp [hc.1, hc.2]
      refine ⟨fun _ => ?_, fun hn => absurd hc hn⟩
      simp [hb]
    · have hb := update_cond_false hc
      refine ⟨fun hcc => absurd hcc hc, fun _ => ?_⟩
      simp [hb]
  · intro hall
    have hmap : s.accounts.map
        (fun r => if a.id == some r.id && r.removed.isNone then
            { r with name := a.name, balance := a.balance }
          else r) = s.accounts := by
      apply map_eq_self_of_eq
      intro r hr
      have hb := update_cond_false (hall r hr)
      simp [hb]
    unfold Store.update_account
    rw [hmap]

/-- Witness for C9 at an id carried by no non-tombstoned row. -/
theorem C9_update_account_frame_witness :
    Store.update_account sampleStore
      ⟨some 5, "Z", 7, 7, ⟨9, some 5, none, none⟩⟩ = sampleStore :=
  (C9_update_account_frame sampleStore
    ⟨some 5, "Z", 7, 7, ⟨9, some 5, none, none⟩⟩).2.2 (by decide)

theorem sql_lookup_found {α : Type} (key : α → Id)
    (rem : α → Option Timestamp) {l : List α}
    (hpw : l.Pairwise (fun x y => key x ≠ key y)) {i : Id} {r : α}
    (hr : r ∈ l) (hk : key r = i) (hm : rem r = none) :
    sqlFirst (l.filter (fun x => key x == i && (rem x).isNone)) = .ok r := by
  apply sqlFirst_filter_eq_ok ?_ hr (by simp [hk, hm])
  intro x y hx hy hpx hpy
  rw [Bool.and_eq_true, beq_iff_eq] at hpx hpy
  exact pairwise_key_inj hpw hx hy (hpx.1.trans hpy.1.symm)

theorem sql_lookup_missing {α : Type} (key : α → Id)
    (rem : α → Option Timestamp) {l : List α} {i : Id}
    (h : ∀ r ∈ l, ¬(key r = i ∧ rem r = none)) :
    sqlFirst (l.filter (fun x => key x == i && (rem x).isNone))
      = .error .panicOutOfBounds := by
  apply sqlFirst_filter_none
  intro x hx
  rw [Bool.and_eq_false_iff]
  by_cases h1 : key x = i
  · right
    cases hrm : rem x with
    | none => exact absurd ⟨h1, hrm⟩ (h x hx)
    | some v => simp
  · left
    simp [h1]

theorem sqlFirst_filter_error_eq {α : Type} (l : List α) (p : α → Bool) :
    ∀ e, sqlFirst (l.filter p) = .error e → e = .panicOutOfBounds := by
  cases hf : l.filter p with
  | nil =>
    intro e he
    simp only [sqlFirst] at he
    exact (Except.error.inj he).symm
  | cons x xs =>
    intro e he
    simp only [sqlFirst] at he
    cases he

/-- C10: the by-id getters take element 0 of the filtered query result. Under
the precondition that a non-removed row with the given id exists (and the
primary-key discipline), the access is in bounds and returns that row; with
no matching non-removed row, the element-0 access is the out-of-bounds panic;
on no path is a NotFound error value produced. -/
theorem C10_lookup_element_zero (s : Store) (i : Id) :
    ((s.accounts.Pairwise (fun x y => x.id ≠ y.id) →
      ∀ r ∈ s.accounts, r.id = i → r.removed = none →
        Store.account s i = .ok r) ∧
     ((∀ r ∈ s.accounts, ¬(r.id = i ∧ r.removed = none)) →
       Store.account s i = .error .panicOutOfBounds) ∧
     (∀ e, Store.account s i = .error e → e = .panicOutOfBounds)) ∧
    ((s.transactions.Pairwise (fun x y => x.id ≠ y.id) →
      ∀ r ∈ s.transactions, r.id = i → r.removed = none →
        Store.transaction s i = .ok r) ∧
     ((∀ r ∈ s.transactions, ¬(r.id = i ∧ r.removed = none)) →
       Store.transaction s i = .error .panicOutOfBounds) ∧
     (∀ e, Store.transaction s i = .error e → e = .panicOutOfBounds)) ∧
    ((s.categories.Pairwise (fun x y => x.id ≠ y.id) →
      ∀ r ∈ s.categories, r.id = i → r.removed = none →
        Store.category s i = .ok r) ∧
     ((∀ r ∈ s.categories, ¬(r.id = i ∧ r.removed = none)) →
       Store.category s i = .error .panicOutOfBounds) ∧
     (∀ e, Store.category s i = .error e → e = .panicOutOfBounds)) ∧
    ((s.plans.Pairwise (fun x y => x.id ≠ y.id) →
      ∀ r ∈ s.plans, r.id = i → r.removed = none →
        Store.plan s i = .ok r) ∧
     ((∀ r ∈ s.plans, ¬(r.id = i ∧ r.removed = none)) →
       Store.plan s i = .error .panicOutOfBounds) ∧
     (∀ e, Store.plan s i = .error e → e = .panicOutOfBounds)) := by
  refine ⟨⟨?_, ?_, ?_⟩, ⟨?_, ?_, ?_⟩, ⟨?_, ?_, ?_⟩, ⟨?_, ?_, ?_⟩⟩
  · intro hpw r hr hk hm
    exact sql_lookup_found (fun x : AccountRow => x.id) (fun x => x.removed) hpw hr hk hm
  · intro hall
    exact sql_lookup_missing (fun x : AccountRow => x.id) (fun x => x.removed) hall
  · exact sqlFirst_filter_error_eq s.accounts _
  · intro hpw r hr hk hm
    exact sql_lookup_found (fun x : TransactionRow => x.id) (fun x => x.removed) hpw hr hk hm
  · intro hall
    exact sql_lookup_missing (fun x : TransactionRow => x.id) (fun x => x.removed) hall
  · exact sqlFirst_filter_error_eq s.transactions _
  · intro hpw r hr hk hm
    exact sql_lookup_found (fun x : CategoryRow => x.id) (fun x => x.removed) hpw hr hk hm
  · intro hall
    exact sql_lookup_missing (fun x : CategoryRow => x.id) (fun x => x.removed) hall
  · exact sqlFirst_filter_error_eq s.categories _
  · intro hpw r hr hk hm
    exact sql_lookup_found (fun x : PlanRow => x.id) (fun x => x.removed) hpw hr hk hm
  · intro hall
    exact sql_lookup_missing (fun x : PlanRow => x.id) (fun x => x.removed) hall
  · exact sqlFirst_filter_error_eq s.plans _

/-- Witness for C10: account 1 of the sample store is found, account 5 is an
out-of-bounds panic. -/
theorem C10_lookup_element_zero_witness :
    Store.account sampleStore 1 = .ok ⟨1, "A", 1000, 1000, 9, 5, none, none⟩ ∧
    Store.account sampleStore 5 = .error .panicOutOfBounds :=
  ⟨(C10_lookup_element_zero sampleStore 1).1.1 (by decide)
      ⟨1, "A", 1000, 1000, 9, 5, none, none⟩ (by decide) rfl rfl,
    (C10_lookup_element_zero sampleStore 5).1.2.1 (by decide)⟩

/-- C3: the provenance-scoped sync queries. For accounts, categories and
plans all three *_since queries fail with the no-such-column SQL error (their
ORDER BY names a timestamp column those tables do not have); only the
transactions queries return the rows selected by the claimed timestamp
predicates. -/
theorem C3_sync_since_queries_divergence (s : Store) (base : Timestamp) :
    (Store.accounts_added_since s base = .error .noSuchColumn ∧
     Store.accounts_changed_since s base = .error .noSuchColumn ∧
     Store.accounts_removed_since s base = .error .noSuchColumn) ∧
    (Store.categories_added_since s base = .error .noSuchColumn ∧
     Store.categories_changed_since s base = .error .noSuchColumn ∧
     Store.categories_removed_since s base = .error .noSuchColumn) ∧
    (Store.plans_added_since s base = .error .noSuchColumn ∧
     Store.plans_changed_since s base = .error .noSuchColumn ∧
     Store.plans_removed_since s base = .error .noSuchColumn) ∧
    (∃ L, Store.transactions_added_since s base = .ok L ∧
      ∀ r, r ∈ L ↔ r ∈ s.transactions ∧ base < r.created) ∧
    (∃ L, Store.transactions_changed_since s base = .ok L ∧
      ∀ r, r ∈ L ↔ r ∈ s.transactions ∧
        ∃ v, r.changed = some v ∧ base < v) ∧
    (∃ L, Store.transactions_removed_since s base = .ok L ∧
      ∀ r, r ∈ L ↔ r ∈ s.transactions ∧
        ∃ v, r.removed = some v ∧ base < v) := by
  refine ⟨⟨rfl, rfl, rfl⟩, ⟨rfl, rfl, rfl⟩, ⟨rfl, rfl, rfl⟩, ?_, ?_, ?_⟩
  · refine ⟨_, rfl, ?_⟩
    intro r
    rw [List.mem_filter, decide_eq_true_eq]
  · refine ⟨_, rfl, ?_⟩
    intro r
    rw [List.mem_filter]
    constructor
    · rintro ⟨hm, hp⟩
      refine ⟨hm, ?_⟩
      cases hch : r.changed with
      | none => rw [hch] at hp; cases hp
      | some v =>
        rw [hch] at hp
        simp only [decide_eq_true_eq] at hp
        exact ⟨v, rfl, hp⟩
    · rintro ⟨hm, v, hv, hlt⟩
      refine ⟨hm, ?_⟩
      rw [hv]
      simp [hlt]
  · refine ⟨_, rfl, ?_⟩
    intro r
    rw [List.mem_filter]
    constructor
    · rintro ⟨hm, hp⟩
      refine ⟨hm, ?_⟩
      cases hch : r.removed with
      | none => rw [hch] at hp; cases hp
      | some v =>
        rw [hch] at hp
        simp only [decide_eq_true_eq] at hp
        exact ⟨v, rfl, hp⟩
    · rintro ⟨hm, v, hv, hlt⟩
      refine ⟨hm, ?_⟩
      rw [hv]
      simp [hlt]

end Bdgt
